import Mathlib

/-!
# Messaging hub (`server.js`): shallow embedding and verified properties

The hub keeps five in-memory stores (`users`, `online`, `messages`, `groups`,
`usernames`) and reacts to socket events.  Every handler is embedded as a pure
function from the store, the calling socket id and the event payload to the new
store and the list of emitted notifications.

Conventions of the embedding:
* a JavaScript `Map` is an association list in insertion order (`set` replaces the
  value of an existing key in place and appends a new key at the end);
* a payload field that the handler tests for truthiness, or that may be missing, is an
  `Option String` (`none` is `undefined`); message ids, chat keys, emoji and edited
  text are strings;
* `Date.now()` / `new Date()` is the `now` argument of a handler and the fresh message
  id `Date.now().toString() + Math.random().toString(36).slice(2)` is the `freshId`
  argument, both supplied by the environment;
* the plain object `msg.reactions` is an association list in property enumeration order
  that inherits the members of `Object.prototype`;
* `toLowerCase` is the default Unicode lower-casing, with the mapping tables of the
  Unicode character database written out.
-/

namespace Hub

/-! ## JavaScript strings -/

/-- UTF-16 code units of one character, as `charCodeAt` and string comparison see it. -/
def utf16 (c : Char) : List Nat :=
  if c.toNat < 65536 then [c.toNat]
  else [55296 + (c.toNat - 65536) / 1024, 56320 + (c.toNat - 65536) % 1024]

/-- The code units of a string. -/
def codeUnits : List Char → List Nat
  | [] => []
  | c :: cs => utf16 c ++ codeUnits cs

/-- Lexicographic comparison of code-unit sequences (the `<` of JavaScript strings). -/
def unitsLt : List Nat → List Nat → Bool
  | _, [] => false
  | [], _ :: _ => true
  | x :: xs, y :: ys => if x < y then true else if y < x then false else unitsLt xs ys

/-- JavaScript `a < b` on strings. -/
def jsLt (a b : String) : Bool := unitsLt (codeUnits a.data) (codeUnits b.data)

/-- Truthiness of a string-or-undefined value: defined and non-empty. -/
def truthy : Option String → Bool
  | some s => s != ""
  | none => false

/-- The conversion `String(v)` that `Array.prototype.join` applies to an element:
`undefined` becomes the empty string. -/
def joinStr : Option String → String
  | some s => s
  | none => ""

/-- The array `[a, b].sort()`: default sort puts `undefined` last and orders strings by
code units; the sort is stable. -/
def sortPair (a b : Option String) : Option String × Option String :=
  match a, b with
  | some x, some y => if jsLt y x then (some y, some x) else (some x, some y)
  | some x, none => (some x, none)
  | none, some y => (some y, none)
  | none, none => (none, none)

/-- The direct chat key `[a, b].sort().join('::')`. -/
def chatKeyOf (a b : Option String) : String :=
  joinStr (sortPair a b).1 ++ "::" ++ joinStr (sortPair a b).2

/-- The call `s.replace('@', '')`: the first `@` of the string is removed. -/
def replaceAt (s : String) : String := ⟨s.data.erase '@'⟩

/-- The expression `s.split('@')[0]`: the part before the first `@`. -/
def splitAtHead (s : String) : String := ⟨s.data.takeWhile (fun c => c != '@')⟩

/-- White space and line terminators removed by `String.prototype.trim`. -/
def isJsSpace (c : Char) : Bool :=
  c.toNat = 9 || c.toNat = 10 || c.toNat = 11 || c.toNat = 12 || c.toNat = 13 ||
  c.toNat = 32 || c.toNat = 160 || c.toNat = 5760 ||
  (8192 ≤ c.toNat && c.toNat ≤ 8202) || c.toNat = 8232 || c.toNat = 8233 ||
  c.toNat = 8239 || c.toNat = 8287 || c.toNat = 12288 || c.toNat = 65279

/-- The call `s.trim()`. -/
def trim (s : String) : String :=
  ⟨((s.data.dropWhile isJsSpace).reverse.dropWhile isJsSpace).reverse⟩

/-- Splitting a character list on the separator `::`, scanning left to right; `cur` is the
current piece in reverse. -/
def splitColons : List Char → List Char → List String
  | [], cur => [⟨cur.reverse⟩]
  | [c], cur => [⟨(c :: cur).reverse⟩]
  | c :: d :: rest, cur =>
    if c = ':' ∧ d = ':' then ⟨cur.reverse⟩ :: splitColons rest []
    else splitColons (d :: rest) (c :: cur)

/-- The call `s.split('::')`. -/
def splitKey (s : String) : List String := splitColons s.data []

/-- The call `s.includes('::')`. -/
def includesColons : List Char → Bool
  | [] => false
  | [_] => false
  | c :: d :: rest => (c = ':' && d = ':') || includesColons (d :: rest)

/-- The palette of `getColor`. -/
def colors : List String :=
  ["#667eea", "#f093fb", "#4facfe", "#fa709a", "#30cfd0",
   "#e86ba7", "#4ecc5e", "#f7971e", "#43e97b", "#6a11cb"]

/-- Avatar colour of a seed: the sum of the first code unit of every character, modulo
the palette size, indexes the palette. -/
def getColor (seed : String) : String :=
  colors.getD ((seed.data.map (fun c => (utf16 c).headD 0)).sum % colors.length) ""

/-! ## JavaScript `Map` and `Set` -/

/-- The call `m.get(k)`. -/
def mapGet {V : Type} : List (String × V) → String → Option V
  | [], _ => none
  | (k, v) :: rest, key => if k = key then some v else mapGet rest key

/-- The call `m.has(k)`. -/
def mapHas {V : Type} (m : List (String × V)) (key : String) : Bool :=
  (mapGet m key).isSome

/-- The call `m.set(k, v)`: an existing key keeps its position. -/
def mapSet {V : Type} : List (String × V) → String → V → List (String × V)
  | [], key, val => [(key, val)]
  | (k, v) :: rest, key, val =>
    if k = key then (k, val) :: rest else (k, v) :: mapSet rest key val

/-- The call `m.delete(k)`: the entry under the key, of which a map holds at most one, is
removed. -/
def mapDelete {V : Type} : List (String × V) → String → List (String × V)
  | [], _ => []
  | (k, v) :: rest, key =>
    if k = key then mapDelete rest key else (k, v) :: mapDelete rest key

/-- The call `Array.from(m.values())`. -/
def mapValues {V : Type} (m : List (String × V)) : List V := m.map Prod.snd

/-- The call `s.add(x)` on a `Set`. -/
def setAdd (s : List String) (x : String) : List String :=
  if x ∈ s then s else s ++ [x]

/-! ## Data model -/

/-- A record of the `users` map. -/
structure User where
  id : String
  email : String
  name : String
  username : String
  avatar : String
  socketId : String
  online : Bool
  lastSeen : Nat
deriving DecidableEq, Repr

/-- A record of the `groups` map; a member is whatever identity value was pushed. -/
structure Group where
  id : String
  name : String
  username : String
  type : String
  avatar : String
  members : List (Option String)
  admins : List (Option String)
  createdBy : String
  createdAt : Nat
deriving DecidableEq, Repr

/-- A stored message.  A direct message has `receiverId`, `read` and `edited`; a group
message has `groupId` and `type`; `reactions` is absent until the first reaction.  The
reaction object is an association list from emoji to the array of reacting users. -/
structure Msg where
  id : String
  senderId : Option String
  receiverId : Option String
  groupId : Option String
  text : String
  timestamp : Nat
  replyTo : Option String
  read : Option Bool
  edited : Option Bool
  type : Option String
  reactions : Option (List (String × List String))
deriving DecidableEq, Repr

/-- The five stores of the hub. -/
structure State where
  users : List (String × User)
  online : List (String × String)
  messages : List (String × List Msg)
  groups : List (String × Group)
  usernames : List String
deriving DecidableEq, Repr

/-- The store at start-up. -/
def State.empty : State :=
  { users := [], online := [], messages := [], groups := [], usernames := [] }

/-- An entry of the `users-list` broadcast. -/
structure UserInfo where
  id : String
  email : String
  name : String
  username : String
  avatar : String
  online : Bool
  lastSeen : Nat
deriving DecidableEq, Repr

/-- An entry of the `groups-list` broadcast. -/
structure GroupInfo where
  id : String
  name : String
  username : String
  type : String
  avatar : String
  members : List (Option String)
  admins : List (Option String)
  createdBy : String
deriving DecidableEq, Repr

/-- An entry of `search-results`; `online` is present for users only. -/
structure SearchHit where
  id : String
  name : String
  username : String
  type : String
  avatar : String
  online : Option Bool
deriving DecidableEq, Repr

/-- Outbound events with their payloads. -/
inductive Out where
  | registrationError (message : String)
  | usersList (l : List UserInfo)
  | groupsList (l : List GroupInfo)
  | userOnline (userId : String) (online : Bool)
  | receiveMessage (m : Msg)
  | messageSent (m : Msg)
  | messagesHistory (l : List Msg)
  | messagesRead (receiverId : Option String)
  | messageEdited (messageId newText chatKey : String)
  | messageDeleted (messageId chatKey : String)
  | userTyping (senderId : Option String) (isTyping : Bool)
  | groupError (message : String)
  | newGroup (g : Group)
  | groupCreated (g : Group)
  | groupUpdated (g : Group)
  | leftGroup (groupId : String)
  | receiveGroupMessage (m : Msg) (g : Group)
  | groupMessagesHistory (l : List Msg)
  | reactionUpdated (messageId : String) (reactions : List (String × List String))
      (chatKey : String)
  | searchResults (l : List SearchHit)
  | userOffline (userId : String) (lastSeen : Nat)
deriving DecidableEq, Repr

/-- Where an event is sent: `io.emit` reaches every session, `socket.emit` and
`io.to(id).emit` reach the session with that id. -/
inductive Target where
  | all
  | socket (sid : String)
deriving DecidableEq, Repr

/-- One emitted notification. -/
structure Emit where
  target : Target
  out : Out
deriving DecidableEq, Repr

/-- The lookup `users.get(id)` for an identity that may be `undefined`. -/
def usersGet (s : State) (id : Option String) : Option User :=
  match id with
  | some e => mapGet s.users e
  | none => none

/-- The pattern `const u = users.get(id); if (u?.online) io.to(u.socketId).emit(...)`. -/
def toOnline (s : State) (id : Option String) (o : Out) : List Emit :=
  match usersGet s id with
  | some u => if u.online then [⟨Target.socket u.socketId, o⟩] else []
  | none => []

/-- The loop `ids.forEach(id => ...)` around `toOnline`. -/
def notifyAll (s : State) (ids : List (Option String)) (o : Out) : List Emit :=
  ids.flatMap (fun id => toOnline s id o)

/-- The statements `if (!messages.has(key)) messages.set(key, []); messages.get(key).push(msg)`. -/
def pushMessage (ms : List (String × List Msg)) (key : String) (msg : Msg) :
    List (String × List Msg) :=
  let ms1 := if mapHas ms key then ms else mapSet ms key []
  mapSet ms1 key ((mapGet ms1 key).getD [] ++ [msg])

/-! ## Handlers -/

/-- Lines 49-81 of `register`: evict the old session entry, upsert the user record, bind
the session and broadcast the directory.  `names` is the handle set left by the
username check. -/
def registerUpsert (s : State) (names : List String) (sid : String) (now : Nat)
    (email name : String) (username avatar : Option String) : State × List Emit :=
  let online1 :=
    match mapGet s.users email with
    | some old =>
      if old.socketId != "" && old.socketId != sid then mapDelete s.online old.socketId
      else s.online
    | none => s.online
  let user : User :=
    { id := email, email := email, name := name,
      username := if truthy username then joinStr username else "@" ++ splitAtHead email,
      avatar := if truthy avatar then joinStr avatar else getColor email,
      socketId := sid, online := true, lastSeen := now }
  let users1 := mapSet s.users email user
  let online2 := mapSet online1 sid email
  let userList : List UserInfo := (mapValues users1).map (fun u =>
    { id := u.email, email := u.email, name := u.name, username := u.username,
      avatar := u.avatar, online := u.online, lastSeen := u.lastSeen })
  let groupList : List GroupInfo := (mapValues s.groups).map (fun g =>
    { id := g.id, name := g.name, username := g.username, type := g.type,
      avatar := g.avatar, members := g.members, admins := g.admins,
      createdBy := g.createdBy })
  ({ s with users := users1, online := online2, usernames := names },
   [⟨Target.all, Out.usersList userList⟩, ⟨Target.all, Out.groupsList groupList⟩,
    ⟨Target.all, Out.userOnline email true⟩])

/-- The `register` handler. -/
def register (s : State) (sid : String) (now : Nat)
    (email name username avatar : Option String) : State × List Emit :=
  match email, name with
  | some e, some n =>
    if e = "" ∨ n = "" then (s, [])
    else if truthy username && !mapHas s.users e then
      let clean := replaceAt (joinStr username)
      if clean ∈ s.usernames then
        (s, [⟨Target.socket sid, Out.registrationError ("@" ++ clean ++ " allaqachon band!")⟩])
      else registerUpsert s (setAdd s.usernames clean) sid now e n username avatar
    else registerUpsert s s.usernames sid now e n username avatar
  | _, _ => (s, [])

/-- The expression `timestamp || new Date()`. -/
def stampOr (timestamp : Option Nat) (now : Nat) : Nat :=
  match timestamp with
  | some t => if t = 0 then now else t
  | none => now

/-- The message object built by `send-message` (lines 89-96). -/
def directMessage (now : Nat) (freshId sender receiver txt : String)
    (timestamp : Option Nat) (replyTo : Option String) : Msg :=
  { id := freshId, senderId := some sender, receiverId := some receiver,
    groupId := none, text := trim txt, timestamp := stampOr timestamp now,
    replyTo := if truthy replyTo then replyTo else none,
    read := some false, edited := some false, type := none, reactions := none }

/-- The `send-message` handler. -/
def sendMessage (s : State) (sid : String) (now : Nat) (freshId : String)
    (senderId receiverId text : Option String) (timestamp : Option Nat)
    (replyTo : Option String) : State × List Emit :=
  match senderId, receiverId, text with
  | some sender, some receiver, some txt =>
    if sender = "" ∨ receiver = "" ∨ txt = "" then (s, [])
    else
      let msg := directMessage now freshId sender receiver txt timestamp replyTo
      let key := chatKeyOf (some sender) (some receiver)
      ({ s with messages := pushMessage s.messages key msg },
       toOnline s (some receiver) (Out.receiveMessage msg) ++
         [⟨Target.socket sid, Out.messageSent msg⟩])
  | _, _, _ => (s, [])

/-- The `get-messages` handler. -/
def getMessages (s : State) (sid : String) (user1 user2 : Option String) :
    State × List Emit :=
  (s, [⟨Target.socket sid,
    Out.messagesHistory ((mapGet s.messages (chatKeyOf user1 user2)).getD [])⟩])

/-- The `mark-as-read` handler. -/
def markAsRead (s : State) (senderId receiverId : Option String) : State × List Emit :=
  let key := chatKeyOf senderId receiverId
  let messages1 :=
    match mapGet s.messages key with
    | some chat =>
      mapSet s.messages key (chat.map (fun m =>
        if m.senderId = senderId ∧ m.receiverId = receiverId then { m with read := some true }
        else m))
    | none => s.messages
  ({ s with messages := messages1 }, toOnline s senderId (Out.messagesRead receiverId))

/-- Apply `f` to the first element satisfying `p` (the object returned by `find`, mutated
in place). -/
def updateFirst (p : Msg → Bool) (f : Msg → Msg) : List Msg → List Msg
  | [] => []
  | m :: rest => if p m then f m :: rest else m :: updateFirst p f rest

/-- The `edit-message` handler. -/
def editMessage (s : State) (messageId chatKey newText : String)
    (senderId : Option String) : State × List Emit :=
  let chat := (mapGet s.messages chatKey).getD []
  match chat.find? (fun m => m.id = messageId) with
  | some msg =>
    if msg.senderId = senderId then
      let chat1 := updateFirst (fun m => m.id = messageId)
        (fun m => { m with text := trim newText, edited := some true }) chat
      ({ s with messages := mapSet s.messages chatKey chat1 },
       notifyAll s ((splitKey chatKey).map some)
         (Out.messageEdited messageId (trim newText) chatKey))
    else (s, [])
  | none => (s, [])

/-- The call `chat.findIndex(m => m.id === messageId)`. -/
def findIndex (messageId : String) : List Msg → Option Nat
  | [] => none
  | m :: rest =>
    if m.id = messageId then some 0 else (findIndex messageId rest).map (fun i => i + 1)

/-- The `delete-message` handler. -/
def deleteMessage (s : State) (sid : String) (messageId chatKey : String)
    (senderId deleteFor : Option String) : State × List Emit :=
  let chat := (mapGet s.messages chatKey).getD []
  match findIndex messageId chat with
  | none => (s, [])
  | some idx =>
    match chat[idx]? with
    | none => (s, [])
    | some m =>
      if m.senderId ≠ senderId then (s, [])
      else if deleteFor = some "everyone" then
        ({ s with messages := mapSet s.messages chatKey (chat.eraseIdx idx) },
         notifyAll s ((splitKey chatKey).map some) (Out.messageDeleted messageId chatKey))
      else (s, [⟨Target.socket sid, Out.messageDeleted messageId chatKey⟩])

/-- The `typing` handler. -/
def typing (s : State) (senderId receiverId : Option String) (isTyping : Bool) :
    State × List Emit :=
  (s, toOnline s receiverId (Out.userTyping senderId isTyping))

/-- The group object built by `create-group` (lines 180-191) for the cleaned handle. -/
def groupRecord (now : Nat) (n clean : String) (type : Option String) (c : String) : Group :=
  { id := "g_" ++ toString now, name := trim n, username := "@" ++ clean,
    type := if truthy type then joinStr type else "group",
    avatar := getColor n, members := [some c], admins := [some c],
    createdBy := c, createdAt := now }

/-- The `create-group` handler. -/
def createGroup (s : State) (sid : String) (now : Nat)
    (name username type createdBy : Option String) : State × List Emit :=
  match name, username, createdBy with
  | some n, some u, some c =>
    if n = "" ∨ u = "" ∨ c = "" then (s, [])
    else
      let clean := replaceAt u
      if clean ∈ s.usernames then
        (s, [⟨Target.socket sid, Out.groupError ("@" ++ clean ++ " allaqachon band!")⟩])
      else
        let groupId := "g_" ++ toString now
        let group := groupRecord now n clean type c
        ({ s with groups := mapSet s.groups groupId group,
                  usernames := setAdd s.usernames clean },
         [⟨Target.all, Out.newGroup group⟩, ⟨Target.socket sid, Out.groupCreated group⟩])
  | _, _, _ => (s, [])

/-- The `join-group` handler. -/
def joinGroup (s : State) (groupId userId : Option String) : State × List Emit :=
  match groupId with
  | none => (s, [])
  | some gid =>
    match mapGet s.groups gid with
    | none => (s, [])
    | some group =>
      let group1 :=
        if userId ∈ group.members then group
        else { group with members := group.members ++ [userId] }
      ({ s with groups := mapSet s.groups gid group1 },
       [⟨Target.all, Out.groupUpdated group1⟩])

/-- The `leave-group` handler. -/
def leaveGroup (s : State) (sid : String) (groupId userId : Option String) :
    State × List Emit :=
  match groupId with
  | none => (s, [])
  | some gid =>
    match mapGet s.groups gid with
    | none => (s, [])
    | some group =>
      let group1 : Group :=
        { group with members := group.members.filter (fun m => m != userId),
                     admins := group.admins.filter (fun a => a != userId) }
      ({ s with groups := mapSet s.groups gid group1 },
       [⟨Target.all, Out.groupUpdated group1⟩, ⟨Target.socket sid, Out.leftGroup gid⟩])

/-- The message object built by `send-group-message` (lines 234-241). -/
def groupMessage (now : Nat) (freshId gid : String) (senderId : Option String)
    (txt : String) (timestamp : Option Nat) (replyTo : Option String) : Msg :=
  { id := freshId, senderId := senderId, receiverId := none, groupId := some gid,
    text := trim txt, timestamp := stampOr timestamp now,
    replyTo := if truthy replyTo then replyTo else none,
    read := none, edited := none, type := some "group", reactions := none }

/-- The `send-group-message` handler. -/
def sendGroupMessage (s : State) (now : Nat) (freshId : String)
    (groupId senderId text : Option String) (timestamp : Option Nat)
    (replyTo : Option String) : State × List Emit :=
  match groupId, text with
  | some gid, some txt =>
    match mapGet s.groups gid with
    | none => (s, [])
    | some group =>
      if txt = "" then (s, [])
      else
        let joins := !decide (senderId ∈ group.members)
        let group1 :=
          if joins then { group with members := group.members ++ [senderId] } else group
        let msg := groupMessage now freshId gid senderId txt timestamp replyTo
        ({ s with groups := mapSet s.groups gid group1,
                  messages := pushMessage s.messages gid msg },
         (if joins then [⟨Target.all, Out.groupUpdated group1⟩] else []) ++
           notifyAll s group1.members (Out.receiveGroupMessage msg group1))
  | _, _ => (s, [])

/-- The `get-group-messages` handler. -/
def getGroupMessages (s : State) (sid : String) (groupId : Option String) :
    State × List Emit :=
  (s, [⟨Target.socket sid, Out.groupMessagesHistory
    ((match groupId with
      | some g => mapGet s.messages g
      | none => none).getD [])⟩])

/-- The own property names of `Object.prototype`; a plain object such as `msg.reactions`
inherits a non-array value under each of them. -/
def objectPrototypeNames : List String :=
  ["constructor", "__defineGetter__", "__defineSetter__", "hasOwnProperty",
   "__lookupGetter__", "__lookupSetter__", "isPrototypeOf", "propertyIsEnumerable",
   "toString", "valueOf", "__proto__", "toLocaleString"]

/-- The array index denoted by a property key, if any: a decimal numeral without leading
zero whose value is below `2^32 - 1`. -/
def arrayIndex (k : String) : Option Nat :=
  match k.data with
  | [] => none
  | c :: cs =>
    if (c :: cs).all (fun d => decide (48 ≤ d.toNat) && decide (d.toNat ≤ 57)) &&
        (c != '0' || cs.isEmpty) then
      if (c :: cs).foldl (fun acc d => acc * 10 + (d.toNat - 48)) 0 < 4294967295 then
        some ((c :: cs).foldl (fun acc d => acc * 10 + (d.toNat - 48)) 0)
      else none
    else none

/-- A new array-index key takes its ascending place among the array-index keys, which come
before all other keys of an object. -/
def objInsertIndex {V : Type} (n : Nat) (k : String) (v : V) :
    List (String × V) → List (String × V)
  | [] => [(k, v)]
  | (k0, v0) :: rest =>
    match arrayIndex k0 with
    | some m =>
      if n < m then (k, v) :: (k0, v0) :: rest else (k0, v0) :: objInsertIndex n k v rest
    | none => (k, v) :: (k0, v0) :: rest

/-- The assignment `o[k] = v` on a plain object, kept in property enumeration order: an
existing key keeps its place, a new array-index key is placed by `objInsertIndex`, any
other new key goes to the end. -/
def objSet {V : Type} (o : List (String × V)) (k : String) (v : V) : List (String × V) :=
  match arrayIndex k with
  | some n => if mapHas o k then mapSet o k v else objInsertIndex n k v o
  | none => mapSet o k v

/-- The reaction toggle of lines 267-276 on the reaction object of one message: create
the object and the emoji array when missing, then push the user or splice the first
occurrence out and drop an emptied entry.  The result is `none` when the statement
`msg.reactions[emoji].indexOf(userId)` throws a `TypeError`: the emoji is no own key of
the object but names a member of `Object.prototype`, so the lookup finds an inherited value
that is truthy and has no `indexOf`. -/
def toggleReaction (reactions : Option (List (String × List String)))
    (emoji userId : String) : Option (List (String × List String)) :=
  let r0 := reactions.getD []
  if !mapHas r0 emoji && decide (emoji ∈ objectPrototypeNames) then none
  else
    let r1 := if mapHas r0 emoji then r0 else objSet r0 emoji []
    let arr := (mapGet r1 emoji).getD []
    if userId ∈ arr then
      let arr1 := arr.erase userId
      if arr1.length = 0 then some (mapDelete r1 emoji) else some (objSet r1 emoji arr1)
    else some (objSet r1 emoji (arr ++ [userId]))

/-- The reaction object of the message after the handler ran: the toggled object, or, when
the toggle threw, the object that `if (!msg.reactions) msg.reactions = {}` left. -/
def reactionsAfter (reactions : Option (List (String × List String)))
    (emoji userId : String) : List (String × List String) :=
  (toggleReaction reactions emoji userId).getD (reactions.getD [])

/-- The `add-reaction` handler.  A `TypeError` thrown by the toggle ends the handler: the
reaction object created by line 267 stays and nothing is emitted. -/
def addReaction (s : State) (messageId chatKey emoji userId : String) :
    State × List Emit :=
  let chat := (mapGet s.messages chatKey).getD []
  match chat.find? (fun m => m.id = messageId) with
  | none => (s, [])
  | some msg =>
    match toggleReaction msg.reactions emoji userId with
    | none =>
      let chat0 := updateFirst (fun m => m.id = messageId)
        (fun m => { m with reactions := some (msg.reactions.getD []) }) chat
      ({ s with messages := mapSet s.messages chatKey chat0 }, [])
    | some reactions =>
      let chat1 := updateFirst (fun m => m.id = messageId)
        (fun m => { m with reactions := some reactions }) chat
      let ids : List (Option String) :=
        if includesColons chatKey.data then (splitKey chatKey).map some
        else match mapGet s.groups chatKey with
          | some group => group.members
          | none => []
      ({ s with messages := mapSet s.messages chatKey chat1 },
       notifyAll s ids (Out.reactionUpdated messageId reactions chatKey))

/-- Simple lower-case mappings of the Unicode character database (version 14.0): an
entry `(lo, hi, step, target)` maps the code points `lo`, `lo + step`, ... up to `hi` to
`target`, `target + step`, ...  The capital sigma U+03A3 and the dotted capital I U+0130
are handled by `lowerFrom` and `lowerChar`. -/
def lowerRanges : List (Nat × Nat × Nat × Nat) :=
  [(65, 90, 1, 97), (192, 214, 1, 224), (216, 222, 1, 248), (256, 302, 2, 257),
   (306, 310, 2, 307), (313, 327, 2, 314), (330, 374, 2, 331), (376, 376, 1, 255),
   (377, 381, 2, 378), (385, 385, 1, 595), (386, 388, 2, 387), (390, 390, 1, 596),
   (391, 391, 1, 392), (393, 394, 1, 598), (395, 395, 1, 396), (398, 398, 1, 477),
   (399, 399, 1, 601), (400, 400, 1, 603), (401, 401, 1, 402), (403, 403, 1, 608),
   (404, 404, 1, 611), (406, 406, 1, 617), (407, 407, 1, 616), (408, 408, 1, 409),
   (412, 412, 1, 623), (413, 413, 1, 626), (415, 415, 1, 629), (416, 420, 2, 417),
   (422, 422, 1, 640), (423, 423, 1, 424), (425, 425, 1, 643), (428, 428, 1, 429),
   (430, 430, 1, 648), (431, 431, 1, 432), (433, 434, 1, 650), (435, 437, 2, 436),
   (439, 439, 1, 658), (440, 440, 1, 441), (444, 444, 1, 445), (452, 452, 1, 454),
   (453, 453, 1, 454), (455, 455, 1, 457), (456, 456, 1, 457), (458, 458, 1, 460),
   (459, 475, 2, 460), (478, 494, 2, 479), (497, 497, 1, 499), (498, 500, 2, 499),
   (502, 502, 1, 405), (503, 503, 1, 447), (504, 542, 2, 505), (544, 544, 1, 414),
   (546, 562, 2, 547), (570, 570, 1, 11365), (571, 571, 1, 572), (573, 573, 1, 410),
   (574, 574, 1, 11366), (577, 577, 1, 578), (579, 579, 1, 384), (580, 580, 1, 649),
   (581, 581, 1, 652), (582, 590, 2, 583), (880, 882, 2, 881), (886, 886, 1, 887),
   (895, 895, 1, 1011), (902, 902, 1, 940), (904, 906, 1, 941), (908, 908, 1, 972),
   (910, 911, 1, 973), (913, 929, 1, 945), (932, 939, 1, 964), (975, 975, 1, 983),
   (984, 1006, 2, 985), (1012, 1012, 1, 952), (1015, 1015, 1, 1016), (1017, 1017, 1, 1010),
   (1018, 1018, 1, 1019), (1021, 1023, 1, 891), (1024, 1039, 1, 1104), (1040, 1071, 1, 1072),
   (1120, 1152, 2, 1121), (1162, 1214, 2, 1163), (1216, 1216, 1, 1231), (1217, 1229, 2, 1218),
   (1232, 1326, 2, 1233), (1329, 1366, 1, 1377), (4256, 4293, 1, 11520), (4295, 4295, 1, 11559),
   (4301, 4301, 1, 11565), (5024, 5103, 1, 43888), (5104, 5109, 1, 5112), (7312, 7354, 1, 4304),
   (7357, 7359, 1, 4349), (7680, 7828, 2, 7681), (7838, 7838, 1, 223), (7840, 7934, 2, 7841),
   (7944, 7951, 1, 7936), (7960, 7965, 1, 7952), (7976, 7983, 1, 7968), (7992, 7999, 1, 7984),
   (8008, 8013, 1, 8000), (8025, 8031, 2, 8017), (8040, 8047, 1, 8032), (8072, 8079, 1, 8064),
   (8088, 8095, 1, 8080), (8104, 8111, 1, 8096), (8120, 8121, 1, 8112), (8122, 8123, 1, 8048),
   (8124, 8124, 1, 8115), (8136, 8139, 1, 8050), (8140, 8140, 1, 8131), (8152, 8153, 1, 8144),
   (8154, 8155, 1, 8054), (8168, 8169, 1, 8160), (8170, 8171, 1, 8058), (8172, 8172, 1, 8165),
   (8184, 8185, 1, 8056), (8186, 8187, 1, 8060), (8188, 8188, 1, 8179), (8486, 8486, 1, 969),
   (8490, 8490, 1, 107), (8491, 8491, 1, 229), (8498, 8498, 1, 8526), (8544, 8559, 1, 8560),
   (8579, 8579, 1, 8580), (9398, 9423, 1, 9424), (11264, 11311, 1, 11312),
   (11360, 11360, 1, 11361), (11362, 11362, 1, 619), (11363, 11363, 1, 7549),
   (11364, 11364, 1, 637), (11367, 11371, 2, 11368), (11373, 11373, 1, 593),
   (11374, 11374, 1, 625), (11375, 11375, 1, 592), (11376, 11376, 1, 594),
   (11378, 11378, 1, 11379), (11381, 11381, 1, 11382), (11390, 11391, 1, 575),
   (11392, 11490, 2, 11393), (11499, 11501, 2, 11500), (11506, 11506, 1, 11507),
   (42560, 42604, 2, 42561), (42624, 42650, 2, 42625), (42786, 42798, 2, 42787),
   (42802, 42862, 2, 42803), (42873, 42875, 2, 42874), (42877, 42877, 1, 7545),
   (42878, 42886, 2, 42879), (42891, 42891, 1, 42892), (42893, 42893, 1, 613),
   (42896, 42898, 2, 42897), (42902, 42920, 2, 42903), (42922, 42922, 1, 614),
   (42923, 42923, 1, 604), (42924, 42924, 1, 609), (42925, 42925, 1, 620),
   (42926, 42926, 1, 618), (42928, 42928, 1, 670), (42929, 42929, 1, 647),
   (42930, 42930, 1, 669), (42931, 42931, 1, 43859), (42932, 42946, 2, 42933),
   (42948, 42948, 1, 42900), (42949, 42949, 1, 642), (42950, 42950, 1, 7566),
   (42951, 42953, 2, 42952), (42960, 42960, 1, 42961), (42966, 42968, 2, 42967),
   (42997, 42997, 1, 42998), (65313, 65338, 1, 65345), (66560, 66599, 1, 66600),
   (66736, 66771, 1, 66776), (66928, 66938, 1, 66967), (66940, 66954, 1, 66979),
   (66956, 66962, 1, 66995), (66964, 66965, 1, 67003), (68736, 68786, 1, 68800),
   (71840, 71871, 1, 71872), (93760, 93791, 1, 93792), (125184, 125217, 1, 125218)]

/-- Code points with the property Cased that are not Case_Ignorable, as inclusive ranges. -/
def casedRanges : List (Nat × Nat) :=
  [(65, 90), (97, 122), (170, 170), (181, 181), (186, 186), (192, 214), (216, 246), (248, 442),
   (444, 447), (452, 659), (661, 687), (880, 883), (886, 887), (891, 893), (895, 895),
   (902, 902), (904, 906), (908, 908), (910, 929), (931, 1013), (1015, 1153), (1162, 1327),
   (1329, 1366), (1376, 1416), (4256, 4293), (4295, 4295), (4301, 4301), (4304, 4346),
   (4349, 4351), (5024, 5109), (5112, 5117), (7296, 7304), (7312, 7354), (7357, 7359),
   (7424, 7467), (7531, 7543), (7545, 7578), (7680, 7957), (7960, 7965), (7968, 8005),
   (8008, 8013), (8016, 8023), (8025, 8025), (8027, 8027), (8029, 8029), (8031, 8061),
   (8064, 8116), (8118, 8124), (8126, 8126), (8130, 8132), (8134, 8140), (8144, 8147),
   (8150, 8155), (8160, 8172), (8178, 8180), (8182, 8188), (8450, 8450), (8455, 8455),
   (8458, 8467), (8469, 8469), (8473, 8477), (8484, 8484), (8486, 8486), (8488, 8488),
   (8490, 8493), (8495, 8500), (8505, 8505), (8508, 8511), (8517, 8521), (8526, 8526),
   (8544, 8575), (8579, 8580), (9398, 9449), (11264, 11387), (11390, 11492), (11499, 11502),
   (11506, 11507), (11520, 11557), (11559, 11559), (11565, 11565), (42560, 42605),
   (42624, 42651), (42786, 42863), (42865, 42887), (42891, 42894), (42896, 42954),
   (42960, 42961), (42963, 42963), (42965, 42969), (42997, 42998), (43002, 43002),
   (43824, 43866), (43872, 43880), (43888, 43967), (64256, 64262), (64275, 64279),
   (65313, 65338), (65345, 65370), (66560, 66639), (66736, 66771), (66776, 66811),
   (66928, 66938), (66940, 66954), (66956, 66962), (66964, 66965), (66967, 66977),
   (66979, 66993), (66995, 67001), (67003, 67004), (68736, 68786), (68800, 68850),
   (71840, 71903), (93760, 93823), (119808, 119892), (119894, 119964), (119966, 119967),
   (119970, 119970), (119973, 119974), (119977, 119980), (119982, 119993), (119995, 119995),
   (119997, 120003), (120005, 120069), (120071, 120074), (120077, 120084), (120086, 120092),
   (120094, 120121), (120123, 120126), (120128, 120132), (120134, 120134), (120138, 120144),
   (120146, 120485), (120488, 120512), (120514, 120538), (120540, 120570), (120572, 120596),
   (120598, 120628), (120630, 120654), (120656, 120686), (120688, 120712), (120714, 120744),
   (120746, 120770), (120772, 120779), (122624, 122633), (122635, 122654), (125184, 125251),
   (127280, 127305), (127312, 127337), (127344, 127369)]

/-- Code points with the property Case_Ignorable, as inclusive ranges. -/
def caseIgnorableRanges : List (Nat × Nat) :=
  [(39, 39), (46, 46), (58, 58), (94, 94), (96, 96), (168, 168), (173, 173), (175, 175),
   (180, 180), (183, 184), (688, 879), (884, 885), (890, 890), (900, 901), (903, 903),
   (1155, 1161), (1369, 1369), (1375, 1375), (1425, 1469), (1471, 1471), (1473, 1474),
   (1476, 1477), (1479, 1479), (1524, 1524), (1536, 1541), (1552, 1562), (1564, 1564),
   (1600, 1600), (1611, 1631), (1648, 1648), (1750, 1757), (1759, 1768), (1770, 1773),
   (1807, 1807), (1809, 1809), (1840, 1866), (1958, 1968), (2027, 2037), (2042, 2042),
   (2045, 2045), (2070, 2093), (2137, 2139), (2184, 2184), (2192, 2193), (2200, 2207),
   (2249, 2306), (2362, 2362), (2364, 2364), (2369, 2376), (2381, 2381), (2385, 2391),
   (2402, 2403), (2417, 2417), (2433, 2433), (2492, 2492), (2497, 2500), (2509, 2509),
   (2530, 2531), (2558, 2558), (2561, 2562), (2620, 2620), (2625, 2626), (2631, 2632),
   (2635, 2637), (2641, 2641), (2672, 2673), (2677, 2677), (2689, 2690), (2748, 2748),
   (2753, 2757), (2759, 2760), (2765, 2765), (2786, 2787), (2810, 2815), (2817, 2817),
   (2876, 2876), (2879, 2879), (2881, 2884), (2893, 2893), (2901, 2902), (2914, 2915),
   (2946, 2946), (3008, 3008), (3021, 3021), (3072, 3072), (3076, 3076), (3132, 3132),
   (3134, 3136), (3142, 3144), (3146, 3149), (3157, 3158), (3170, 3171), (3201, 3201),
   (3260, 3260), (3263, 3263), (3270, 3270), (3276, 3277), (3298, 3299), (3328, 3329),
   (3387, 3388), (3393, 3396), (3405, 3405), (3426, 3427), (3457, 3457), (3530, 3530),
   (3538, 3540), (3542, 3542), (3633, 3633), (3636, 3642), (3654, 3662), (3761, 3761),
   (3764, 3772), (3782, 3782), (3784, 3789), (3864, 3865), (3893, 3893), (3895, 3895),
   (3897, 3897), (3953, 3966), (3968, 3972), (3974, 3975), (3981, 3991), (3993, 4028),
   (4038, 4038), (4141, 4144), (4146, 4151), (4153, 4154), (4157, 4158), (4184, 4185),
   (4190, 4192), (4209, 4212), (4226, 4226), (4229, 4230), (4237, 4237), (4253, 4253),
   (4348, 4348), (4957, 4959), (5906, 5908), (5938, 5939), (5970, 5971), (6002, 6003),
   (6068, 6069), (6071, 6077), (6086, 6086), (6089, 6099), (6103, 6103), (6109, 6109),
   (6155, 6159), (6211, 6211), (6277, 6278), (6313, 6313), (6432, 6434), (6439, 6440),
   (6450, 6450), (6457, 6459), (6679, 6680), (6683, 6683), (6742, 6742), (6744, 6750),
   (6752, 6752), (6754, 6754), (6757, 6764), (6771, 6780), (6783, 6783), (6823, 6823),
   (6832, 6862), (6912, 6915), (6964, 6964), (6966, 6970), (6972, 6972), (6978, 6978),
   (7019, 7027), (7040, 7041), (7074, 7077), (7080, 7081), (7083, 7085), (7142, 7142),
   (7144, 7145), (7149, 7149), (7151, 7153), (7212, 7219), (7222, 7223), (7288, 7293),
   (7376, 7378), (7380, 7392), (7394, 7400), (7405, 7405), (7412, 7412), (7416, 7417),
   (7468, 7530), (7544, 7544), (7579, 7679), (8125, 8125), (8127, 8129), (8141, 8143),
   (8157, 8159), (8173, 8175), (8189, 8190), (8203, 8207), (8216, 8217), (8228, 8228),
   (8231, 8231), (8234, 8238), (8288, 8292), (8294, 8303), (8305, 8305), (8319, 8319),
   (8336, 8348), (8400, 8432), (11388, 11389), (11503, 11505), (11631, 11631), (11647, 11647),
   (11744, 11775), (11823, 11823), (12293, 12293), (12330, 12333), (12337, 12341),
   (12347, 12347), (12441, 12446), (12540, 12542), (40981, 40981), (42232, 42237),
   (42508, 42508), (42607, 42610), (42612, 42621), (42623, 42623), (42652, 42655),
   (42736, 42737), (42752, 42785), (42864, 42864), (42888, 42890), (42994, 42996),
   (43000, 43001), (43010, 43010), (43014, 43014), (43019, 43019), (43045, 43046),
   (43052, 43052), (43204, 43205), (43232, 43249), (43263, 43263), (43302, 43309),
   (43335, 43345), (43392, 43394), (43443, 43443), (43446, 43449), (43452, 43453),
   (43471, 43471), (43493, 43494), (43561, 43566), (43569, 43570), (43573, 43574),
   (43587, 43587), (43596, 43596), (43632, 43632), (43644, 43644), (43696, 43696),
   (43698, 43700), (43703, 43704), (43710, 43711), (43713, 43713), (43741, 43741),
   (43756, 43757), (43763, 43764), (43766, 43766), (43867, 43871), (43881, 43883),
   (44005, 44005), (44008, 44008), (44013, 44013), (64286, 64286), (64434, 64450),
   (65024, 65039), (65043, 65043), (65056, 65071), (65106, 65106), (65109, 65109),
   (65279, 65279), (65287, 65287), (65294, 65294), (65306, 65306), (65342, 65342),
   (65344, 65344), (65392, 65392), (65438, 65439), (65507, 65507), (65529, 65531),
   (66045, 66045), (66272, 66272), (66422, 66426), (67456, 67461), (67463, 67504),
   (67506, 67514), (68097, 68099), (68101, 68102), (68108, 68111), (68152, 68154),
   (68159, 68159), (68325, 68326), (68900, 68903), (69291, 69292), (69446, 69456),
   (69506, 69509), (69633, 69633), (69688, 69702), (69744, 69744), (69747, 69748),
   (69759, 69761), (69811, 69814), (69817, 69818), (69821, 69821), (69826, 69826),
   (69837, 69837), (69888, 69890), (69927, 69931), (69933, 69940), (70003, 70003),
   (70016, 70017), (70070, 70078), (70089, 70092), (70095, 70095), (70191, 70193),
   (70196, 70196), (70198, 70199), (70206, 70206), (70367, 70367), (70371, 70378),
   (70400, 70401), (70459, 70460), (70464, 70464), (70502, 70508), (70512, 70516),
   (70712, 70719), (70722, 70724), (70726, 70726), (70750, 70750), (70835, 70840),
   (70842, 70842), (70847, 70848), (70850, 70851), (71090, 71093), (71100, 71101),
   (71103, 71104), (71132, 71133), (71219, 71226), (71229, 71229), (71231, 71232),
   (71339, 71339), (71341, 71341), (71344, 71349), (71351, 71351), (71453, 71455),
   (71458, 71461), (71463, 71467), (71727, 71735), (71737, 71738), (71995, 71996),
   (71998, 71998), (72003, 72003), (72148, 72151), (72154, 72155), (72160, 72160),
   (72193, 72202), (72243, 72248), (72251, 72254), (72263, 72263), (72273, 72278),
   (72281, 72283), (72330, 72342), (72344, 72345), (72752, 72758), (72760, 72765),
   (72767, 72767), (72850, 72871), (72874, 72880), (72882, 72883), (72885, 72886),
   (73009, 73014), (73018, 73018), (73020, 73021), (73023, 73029), (73031, 73031),
   (73104, 73105), (73109, 73109), (73111, 73111), (73459, 73460), (78896, 78904),
   (92912, 92916), (92976, 92982), (92992, 92995), (94031, 94031), (94095, 94111),
   (94176, 94177), (94179, 94180), (110576, 110579), (110581, 110587), (110589, 110590),
   (113821, 113822), (113824, 113827), (118528, 118573), (118576, 118598), (119143, 119145),
   (119155, 119170), (119173, 119179), (119210, 119213), (119362, 119364), (121344, 121398),
   (121403, 121452), (121461, 121461), (121476, 121476), (121499, 121503), (121505, 121519),
   (122880, 122886), (122888, 122904), (122907, 122913), (122915, 122916), (122918, 122922),
   (123184, 123197), (123566, 123566), (123628, 123631), (125136, 125142), (125252, 125259),
   (127995, 127999), (917505, 917505), (917536, 917631), (917760, 917999)]

/-- Membership of a code point in a list of inclusive ranges. -/
def inRanges : List (Nat × Nat) → Nat → Bool
  | [], _ => false
  | (lo, hi) :: rest, n => (decide (lo ≤ n) && decide (n ≤ hi)) || inRanges rest n

/-- The lower-case target of a code point in a mapping table, if it has one. -/
def lowerTarget : List (Nat × Nat × Nat × Nat) → Nat → Option Nat
  | [], _ => none
  | (lo, hi, step, target) :: rest, n =>
    if lo ≤ n ∧ n ≤ hi ∧ (n - lo) % step = 0 then some (target + (n - lo))
    else lowerTarget rest n

/-- Lower-casing of one character outside the sigma rule: U+0130 becomes `i` followed by
the combining dot U+0307, a character of the table becomes its target, any other character
is kept. -/
def lowerChar (c : Char) : List Char :=
  if c.toNat = 304 then ['i', Char.ofNat 775]
  else
    match lowerTarget lowerRanges c.toNat with
    | some t => [Char.ofNat t]
    | none => [c]

/-- Whether the text after a capital sigma is case-ignorable characters followed by a cased
letter. -/
def followedByCased (cs : List Char) : Bool :=
  match cs.dropWhile (fun c => inRanges caseIgnorableRanges c.toNat) with
  | d :: _ => inRanges casedRanges d.toNat
  | [] => false

/-- Lower-casing from left to right; `before` tells whether the text read so far ends in a
cased letter followed by case-ignorable characters.  A capital sigma in that context which
is not followed by a cased letter becomes the final sigma U+03C2, any other one U+03C3. -/
def lowerFrom (before : Bool) : List Char → List Char
  | [] => []
  | c :: cs =>
    (if c.toNat = 931 then
      [if before && !followedByCased cs then Char.ofNat 962 else Char.ofNat 963]
     else lowerChar c) ++
    lowerFrom
      (if inRanges caseIgnorableRanges c.toNat then before
       else inRanges casedRanges c.toNat) cs

/-- The call `s.toLowerCase()`: the default (locale-independent) Unicode lower-casing. -/
def toLowerCase (s : String) : String := ⟨lowerFrom false s.data⟩

/-- Whether the list `t` starts the list `l`. -/
def startsWith : List Char → List Char → Bool
  | _, [] => true
  | [], _ :: _ => false
  | c :: l, d :: t => c = d && startsWith l t

/-- The call `s.includes(t)` on character lists. -/
def includesList : List Char → List Char → Bool
  | [], t => startsWith [] t
  | c :: l, t => startsWith (c :: l) t || includesList l t

/-- The `search` handler. -/
def search (s : State) (sid : String) (query : String) : State × List Emit :=
  let term := trim (replaceAt (toLowerCase query))
  if term = "" then (s, [])
  else
    let hit (username name : String) : Bool :=
      (username != "" && includesList (toLowerCase username).data term.data) ||
      (name != "" && includesList (toLowerCase name).data term.data)
    let foundUsers : List SearchHit :=
      ((mapValues s.users).filter (fun u => hit u.username u.name)).map (fun u =>
        { id := u.email, name := u.name, username := u.username, type := "user",
          avatar := u.avatar, online := some u.online })
    let foundGroups : List SearchHit :=
      ((mapValues s.groups).filter (fun g => hit g.username g.name)).map (fun g =>
        { id := g.id, name := g.name, username := g.username, type := g.type,
          avatar := g.avatar, online := none })
    (s, [⟨Target.socket sid, Out.searchResults (foundUsers ++ foundGroups)⟩])

/-- The `disconnect` handler. -/
def disconnect (s : State) (sid : String) (now : Nat) : State × List Emit :=
  match mapGet s.online sid with
  | some email =>
    if email = "" then (s, [])
    else
      match mapGet s.users email with
      | some user =>
        ({ s with users := mapSet s.users email { user with online := false, lastSeen := now },
                  online := mapDelete s.online sid },
         [⟨Target.all, Out.userOffline email now⟩])
      | none => ({ s with online := mapDelete s.online sid }, [])
  | none => (s, [])

/-! ## Events -/

/-- An inbound event: the socket it arrives on, the environment values it consumes and
its payload. -/
inductive Event where
  | register (sid : String) (now : Nat) (email name username avatar : Option String)
  | sendMessage (sid : String) (now : Nat) (freshId : String)
      (senderId receiverId text : Option String) (timestamp : Option Nat)
      (replyTo : Option String)
  | getMessages (sid : String) (user1 user2 : Option String)
  | markAsRead (senderId receiverId : Option String)
  | editMessage (messageId chatKey newText : String) (senderId : Option String)
  | deleteMessage (sid : String) (messageId chatKey : String)
      (senderId deleteFor : Option String)
  | typing (senderId receiverId : Option String) (isTyping : Bool)
  | createGroup (sid : String) (now : Nat) (name username type createdBy : Option String)
  | joinGroup (groupId userId : Option String)
  | leaveGroup (sid : String) (groupId userId : Option String)
  | sendGroupMessage (now : Nat) (freshId : String) (groupId senderId text : Option String)
      (timestamp : Option Nat) (replyTo : Option String)
  | getGroupMessages (sid : String) (groupId : Option String)
  | addReaction (messageId chatKey emoji userId : String)
  | search (sid : String) (query : String)
  | disconnect (sid : String) (now : Nat)
deriving DecidableEq, Repr

/-- One handler run to completion. -/
def step (s : State) : Event → State × List Emit
  | .register sid now email name username avatar =>
    register s sid now email name username avatar
  | .sendMessage sid now freshId senderId receiverId text timestamp replyTo =>
    sendMessage s sid now freshId senderId receiverId text timestamp replyTo
  | .getMessages sid user1 user2 => getMessages s sid user1 user2
  | .markAsRead senderId receiverId => markAsRead s senderId receiverId
  | .editMessage messageId chatKey newText senderId =>
    editMessage s messageId chatKey newText senderId
  | .deleteMessage sid messageId chatKey senderId deleteFor =>
    deleteMessage s sid messageId chatKey senderId deleteFor
  | .typing senderId receiverId isTyping => typing s senderId receiverId isTyping
  | .createGroup sid now name username type createdBy =>
    createGroup s sid now name username type createdBy
  | .joinGroup groupId userId => joinGroup s groupId userId
  | .leaveGroup sid groupId userId => leaveGroup s sid groupId userId
  | .sendGroupMessage now freshId groupId senderId text timestamp replyTo =>
    sendGroupMessage s now freshId groupId senderId text timestamp replyTo
  | .getGroupMessages sid groupId => getGroupMessages s sid groupId
  | .addReaction messageId chatKey emoji userId => addReaction s messageId chatKey emoji userId
  | .search sid query => search s sid query
  | .disconnect sid now => disconnect s sid now

/-- The store after a sequence of events, processed one at a time in arrival order. -/
def run (s : State) : List Event → State
  | [] => s
  | e :: es => run (step s e).1 es

/-- The notifications emitted by each event of a sequence, in order. -/
def outputs (s : State) : List Event → List (List Emit)
  | [] => []
  | e :: es => (step s e).2 :: outputs (step s e).1 es

/-- The array of users recorded under an emoji in a reaction object (empty when the
object or the entry is missing). -/
def reactedUsers (reactions : Option (List (String × List String))) (emoji : String) :
    List String :=
  (mapGet (reactions.getD []) emoji).getD []

/-- The environment values and free payload fields of one `send-group-message`. -/
structure GroupSend where
  now : Nat
  freshId : String
  text : String
  timestamp : Option Nat
  replyTo : Option String
deriving DecidableEq, Repr

/-- The event of sending `p` to group `gid` as `senderId`. -/
def GroupSend.event (gid : String) (senderId : Option String) (p : GroupSend) : Event :=
  Event.sendGroupMessage p.now p.freshId (some gid) senderId (some p.text) p.timestamp p.replyTo

/-- Whether a notification is a `group-updated` event. -/
def isGroupUpdated (e : Emit) : Bool :=
  match e.out with
  | Out.groupUpdated _ => true
  | _ => false

/-- The reaction object of the message is one the handler can have built: no user is
recorded twice under one emoji, and no own key names a member of `Object.prototype`. -/
def Msg.reactionsOk (m : Msg) : Prop :=
  ∀ emoji, (reactedUsers m.reactions emoji).Nodup ∧
    (emoji ∈ objectPrototypeNames → mapGet (m.reactions.getD []) emoji = none)

/-- Every stored message satisfies `Msg.reactionsOk`. -/
def State.reactionsOk (s : State) : Prop :=
  ∀ p ∈ s.messages, ∀ m ∈ p.2, m.reactionsOk

/-- Session ids are issued by the transport and are never the empty string; the only
handler that stores the calling session id is `register`. -/
def Event.sidOk : Event → Bool
  | Event.register sid _ _ _ _ _ => sid != ""
  | _ => true

/-- The session registry is consistent with the user directory: its keys are distinct and
non-empty, and every entry `sid -> email` points to a user record whose current session
reference is `sid`. -/
def SessionInv (s : State) : Prop :=
  (s.online.map Prod.fst).Nodup ∧
  ∀ sid email, mapGet s.online sid = some email →
    sid ≠ "" ∧ ∃ u, mapGet s.users email = some u ∧ u.socketId = sid

/-- The group registry is consistent with the handle set: every group's handle is `@`
followed by a member of `usernames`, and no two group records carry the same handle. -/
def GroupInv (groups : List (String × Group)) (usernames : List String) : Prop :=
  (∀ p ∈ groups, ∃ c ∈ usernames, p.2.username = "@" ++ c) ∧
  (groups.map (fun p => p.2.username)).Nodup

/-- The term matched by `search`: `query.toLowerCase().replace('@', '').trim()`. -/
def searchTerm (query : String) : String := trim (replaceAt (toLowerCase query))

/-- The filter of `search` (lines 299-300 and 307-308) on a handle and a display name. -/
def searchMatch (term username name : String) : Bool :=
  (username != "" && includesList (toLowerCase username).data term.data) ||
  (name != "" && includesList (toLowerCase name).data term.data)

/-- The array `foundUsers` of `search`. -/
def foundUsers (s : State) (term : String) : List SearchHit :=
  ((mapValues s.users).filter (fun u => searchMatch term u.username u.name)).map (fun u =>
    { id := u.email, name := u.name, username := u.username, type := "user",
      avatar := u.avatar, online := some u.online })

/-- The array `foundGroups` of `search`. -/
def foundGroups (s : State) (term : String) : List SearchHit :=
  ((mapValues s.groups).filter (fun g => searchMatch term g.username g.name)).map (fun g =>
    { id := g.id, name := g.name, username := g.username, type := g.type,
      avatar := g.avatar, online := none })

/-- The string `t` is `s` without its leading and trailing white space: `s` is white space,
then `t`, then white space, and `t` neither starts nor ends with white space. -/
def IsTrimOf (t s : String) : Prop :=
  ∃ pre post : List Char, s.data = pre ++ t.data ++ post ∧
    (∀ c ∈ pre, isJsSpace c = true) ∧ (∀ c ∈ post, isJsSpace c = true) ∧
    (∀ c, t.data.head? = some c → isJsSpace c = false) ∧
    (∀ c, t.data.getLast? = some c → isJsSpace c = false)

/-- The string `t` is `s` with its first `@` removed, or `s` itself when `s` has none. -/
def IsFirstAtRemoved (t s : String) : Prop :=
  ('@' ∉ s.data ∧ t = s) ∨
  ∃ pre post : List Char, s.data = pre ++ '@' :: post ∧ '@' ∉ pre ∧ t.data = pre ++ post

/-- The session ids of those identities of `ids` that have a user record flagged online, in
the order of `ids`. -/
def onlineSessions (s : State) : List String → List String
  | [] => []
  | id :: rest =>
    match mapGet s.users id with
    | some u => if u.online then u.socketId :: onlineSessions s rest else onlineSessions s rest
    | none => onlineSessions s rest

/-- The strings `a` and `b` differ at most in the case of the letters `A`-`Z`. -/
def SameUpToAsciiCase (a b : String) : Prop :=
  a.data.map Char.toLower = b.data.map Char.toLower

/-- What lower-casing looks at in one character: whether it is the capital sigma, its own
lower-case form, and its Case_Ignorable and Cased classes. -/
def caseInfo (c : Char) : Bool × List Char × Bool × Bool :=
  (decide (c.toNat = 931), lowerChar c, inRanges caseIgnorableRanges c.toNat,
   inRanges casedRanges c.toNat)

/-! # Verified properties -/

/-! ## Association maps -/

theorem mapGet_mapSet_self {V : Type} (m : List (String × V)) (k : String) (v : V) :
    mapGet (mapSet m k v) k = some v := by
  induction m with
  | nil => simp [mapSet, mapGet]
  | cons p rest ih =>
    obtain ⟨k0, v0⟩ := p
    by_cases h : k0 = k
    · simp [mapSet, mapGet, h]
    · simp [mapSet, mapGet, h, ih]

theorem mapGet_mapSet_ne {V : Type} (m : List (String × V)) (k k1 : String) (v : V)
    (h : k1 ≠ k) : mapGet (mapSet m k v) k1 = mapGet m k1 := by
  induction m with
  | nil => simp [mapSet, mapGet, Ne.symm h]
  | cons p rest ih =>
    obtain ⟨k0, v0⟩ := p
    by_cases h0 : k0 = k
    · subst h0
      simp [mapSet, mapGet, Ne.symm h]
    · by_cases h1 : k0 = k1
      · subst h1
        simp [mapSet, mapGet, h]
      · simp [mapSet, mapGet, h0, h1, ih]

theorem mapGet_mapDelete_self {V : Type} (m : List (String × V)) (k : String) :
    mapGet (mapDelete m k) k = none := by
  induction m with
  | nil => simp [mapDelete, mapGet]
  | cons p rest ih =>
    obtain ⟨k0, v0⟩ := p
    by_cases h : k0 = k
    · simp [mapDelete, h, ih]
    · simp [mapDelete, mapGet, h, ih]

theorem mapGet_mapDelete_ne {V : Type} (m : List (String × V)) (k k1 : String)
    (h : k1 ≠ k) : mapGet (mapDelete m k) k1 = mapGet m k1 := by
  induction m with
  | nil => simp [mapDelete, mapGet]
  | cons p rest ih =>
    obtain ⟨k0, v0⟩ := p
    by_cases h0 : k0 = k
    · subst h0
      simp [mapDelete, mapGet, Ne.symm h, ih]
    · by_cases h1 : k0 = k1
      · subst h1
        simp [mapDelete, mapGet, h]
      · simp [mapDelete, mapGet, h0, h1, ih]

theorem mapGet_pushMessage_self (ms : List (String × List Msg)) (key : String) (msg : Msg) :
    mapGet (pushMessage ms key msg) key = some ((mapGet ms key).getD [] ++ [msg]) := by
  unfold pushMessage
  simp only [mapGet_mapSet_self]
  cases h : mapGet ms key with
  | none => simp [mapHas, h, mapGet_mapSet_self]
  | some l => simp [mapHas, h]

theorem mapGet_pushMessage_ne (ms : List (String × List Msg)) (key k1 : String) (msg : Msg)
    (h : k1 ≠ key) : mapGet (pushMessage ms key msg) k1 = mapGet ms k1 := by
  unfold pushMessage
  simp only [mapGet_mapSet_ne _ _ _ _ h]
  split
  · rfl
  · exact mapGet_mapSet_ne _ _ _ _ h

/-! ## Chat keys -/

theorem char_valid (c : Char) :
    c.toNat < 55296 ∨ (57343 < c.toNat ∧ c.toNat < 1114112) := c.valid

theorem char_eq_of_toNat {c d : Char} (h : c.toNat = d.toNat) : c = d := by
  rw [← Char.ofNat_toNat c, ← Char.ofNat_toNat d, h]

theorem codeUnits_injective : ∀ l₁ l₂ : List Char, codeUnits l₁ = codeUnits l₂ → l₁ = l₂
  | [], [] => fun _ => rfl
  | [], d :: ds => by
    intro h
    simp only [codeUnits, utf16] at h
    split at h <;> simp at h
  | c :: cs, [] => by
    intro h
    simp only [codeUnits, utf16] at h
    split at h <;> simp at h
  | c :: cs, d :: ds => by
    intro h
    have hc := char_valid c
    have hd := char_valid d
    simp only [codeUnits, utf16] at h
    split at h <;> split at h <;> simp at h
    · obtain ⟨h1, h2⟩ := h
      rw [char_eq_of_toNat h1, codeUnits_injective cs ds h2]
    · omega
    · omega
    · obtain ⟨h1, h2, h3⟩ := h
      have : c.toNat = d.toNat := by omega
      rw [char_eq_of_toNat this, codeUnits_injective cs ds h3]

theorem unitsLt_total : ∀ xs ys : List Nat,
    unitsLt xs ys = false → unitsLt ys xs = false → xs = ys
  | [], [] => fun _ _ => rfl
  | [], _ :: _ => by simp [unitsLt]
  | _ :: _, [] => by simp [unitsLt]
  | x :: xs, y :: ys => by
    intro h1 h2
    simp only [unitsLt] at h1 h2
    by_cases hxy : x < y
    · simp [hxy] at h1
    · by_cases hyx : y < x
      · simp [hyx] at h2
      · simp only [hxy, hyx, if_false] at h1 h2
        have : x = y := by omega
        rw [this, unitsLt_total xs ys h1 h2]

theorem unitsLt_asymm : ∀ xs ys : List Nat, unitsLt xs ys = true → unitsLt ys xs = false
  | _, [] => by simp [unitsLt]
  | [], _ :: _ => by simp [unitsLt]
  | x :: xs, y :: ys => by
    intro h
    simp only [unitsLt] at h ⊢
    by_cases hxy : x < y
    · have : ¬ y < x := by omega
      simp [this, hxy]
    · by_cases hyx : y < x
      · simp [hxy, hyx] at h
      · simp only [hxy, hyx, if_false] at h ⊢
        exact unitsLt_asymm xs ys h

theorem jsLt_total (a b : String) (h1 : jsLt a b = false) (h2 : jsLt b a = false) : a = b := by
  have := codeUnits_injective _ _ (unitsLt_total _ _ h1 h2)
  cases a; cases b; simp_all

theorem jsLt_asymm (a b : String) (h : jsLt a b = true) : jsLt b a = false :=
  unitsLt_asymm _ _ h

theorem sortPair_comm (a b : Option String) : sortPair a b = sortPair b a := by
  cases a with
  | none => cases b <;> rfl
  | some x =>
    cases b with
    | none => rfl
    | some y =>
      simp only [sortPair]
      cases hxy : jsLt x y with
      | true => simp [jsLt_asymm x y hxy]
      | false =>
        cases hyx : jsLt y x with
        | true => simp
        | false => simp [jsLt_total x y hxy hyx]

theorem chatKeyOf_comm (a b : Option String) : chatKeyOf a b = chatKeyOf b a := by
  unfold chatKeyOf
  rw [sortPair_comm]

/-! ## Direct messages -/

theorem sendMessage_valid (s : State) (sid : String) (now : Nat) (freshId a b txt : String)
    (ts : Option Nat) (rt : Option String) (ha : a ≠ "") (hb : b ≠ "") (ht : txt ≠ "") :
    sendMessage s sid now freshId (some a) (some b) (some txt) ts rt =
      ({ s with messages := pushMessage s.messages (chatKeyOf (some a) (some b))
                  (directMessage now freshId a b txt ts rt) },
       toOnline s (some b) (Out.receiveMessage (directMessage now freshId a b txt ts rt)) ++
         [⟨Target.socket sid, Out.messageSent (directMessage now freshId a b txt ts rt)⟩]) := by
  simp [sendMessage, ha, hb, ht]

theorem history_after_send (s : State) (caller sid : String) (now : Nat)
    (freshId x y txt : String) (ts : Option Nat) (rt : Option String)
    (hx : x ≠ "") (hy : y ≠ "") (ht : txt ≠ "") :
    (getMessages (sendMessage s caller now freshId (some x) (some y) (some txt) ts rt).1
        sid (some x) (some y)).2 =
      [⟨Target.socket sid, Out.messagesHistory
        ((mapGet s.messages (chatKeyOf (some x) (some y))).getD [] ++
          [directMessage now freshId x y txt ts rt])⟩] ∧
    (getMessages (sendMessage s caller now freshId (some x) (some y) (some txt) ts rt).1
        sid (some y) (some x)).2 =
      [⟨Target.socket sid, Out.messagesHistory
        ((mapGet s.messages (chatKeyOf (some x) (some y))).getD [] ++
          [directMessage now freshId x y txt ts rt])⟩] := by
  rw [sendMessage_valid s caller now freshId x y txt ts rt hx hy ht]
  simp [getMessages, chatKeyOf_comm (some y) (some x), mapGet_pushMessage_self]

/-- C3: the direct chat key does not depend on the order of the two identities, so
`get-messages` emits the same history for `(a, b)` and `(b, a)` in every store, and after
a valid `send-message` from `x` to `y` both queries return a history that ends with the
stored message. -/
theorem chat_key_symmetry (s : State) (sid : String) (a b : Option String) :
    chatKeyOf a b = chatKeyOf b a ∧
    getMessages s sid a b = getMessages s sid b a ∧
    ∀ (caller : String) (now : Nat) (freshId x y txt : String) (ts : Option Nat)
      (rt : Option String), x ≠ "" → y ≠ "" → txt ≠ "" →
      (getMessages (sendMessage s caller now freshId (some x) (some y) (some txt) ts rt).1
          sid (some x) (some y)).2 =
        [⟨Target.socket sid, Out.messagesHistory
          ((mapGet s.messages (chatKeyOf (some x) (some y))).getD [] ++
            [directMessage now freshId x y txt ts rt])⟩] ∧
      (getMessages (sendMessage s caller now freshId (some x) (some y) (some txt) ts rt).1
          sid (some y) (some x)).2 =
        [⟨Target.socket sid, Out.messagesHistory
          ((mapGet s.messages (chatKeyOf (some x) (some y))).getD [] ++
            [directMessage now freshId x y txt ts rt])⟩] := by
  refine ⟨chatKeyOf_comm a b, ?_, ?_⟩
  · simp [getMessages, chatKeyOf_comm a b]
  · intro caller now freshId x y txt ts rt hx hy ht
    exact history_after_send s caller sid now freshId x y txt ts rt hx hy ht

/-- Witness for C3: in the empty store `b@x` sends "hi" to `a@x`; the key is `a@x::b@x`
in both orders and both queries return the one stored message. -/
theorem chat_key_symmetry_witness :
    chatKeyOf (some "b@x") (some "a@x") = chatKeyOf (some "a@x") (some "b@x") ∧
    (getMessages (sendMessage State.empty "s1" 7 "m1" (some "b@x") (some "a@x") (some "hi")
        none none).1 "s2" (some "a@x") (some "b@x")).2 =
      [⟨Target.socket "s2", Out.messagesHistory
        ((mapGet State.empty.messages (chatKeyOf (some "b@x") (some "a@x"))).getD [] ++
          [directMessage 7 "m1" "b@x" "a@x" "hi" none none])⟩] :=
  ⟨(chat_key_symmetry State.empty "s2" (some "b@x") (some "a@x")).1,
   ((chat_key_symmetry State.empty "s2" (some "b@x") (some "a@x")).2.2
      "s1" 7 "m1" "b@x" "a@x" "hi" none none (by decide) (by decide) (by decide)).2⟩

/-- C5: when the receiver has no user record or is flagged offline, a valid
`send-message` from `a` to `b` emits exactly one event, `message-sent` to the caller with
the stored message (so no `receive-message`), the stored message has `read = false`, and
afterwards `get-messages` in either argument order returns the previous log followed by
that message. -/
theorem delivery_gating (s : State) (sid sid2 : String) (now : Nat)
    (freshId a b txt : String) (ts : Option Nat) (rt : Option String)
    (ha : a ≠ "") (hb : b ≠ "") (ht : txt ≠ "")
    (hoff : ∀ u, mapGet s.users b = some u → u.online = false) :
    (sendMessage s sid now freshId (some a) (some b) (some txt) ts rt).2 =
      [⟨Target.socket sid, Out.messageSent (directMessage now freshId a b txt ts rt)⟩] ∧
    (directMessage now freshId a b txt ts rt).read = some false ∧
    (getMessages s sid2 (some a) (some b)).2 =
      [⟨Target.socket sid2, Out.messagesHistory
        ((mapGet s.messages (chatKeyOf (some a) (some b))).getD [])⟩] ∧
    (getMessages (sendMessage s sid now freshId (some a) (some b) (some txt) ts rt).1
        sid2 (some a) (some b)).2 =
      [⟨Target.socket sid2, Out.messagesHistory
        ((mapGet s.messages (chatKeyOf (some a) (some b))).getD [] ++
          [directMessage now freshId a b txt ts rt])⟩] ∧
    (getMessages (sendMessage s sid now freshId (some a) (some b) (some txt) ts rt).1
        sid2 (some b) (some a)).2 =
      [⟨Target.socket sid2, Out.messagesHistory
        ((mapGet s.messages (chatKeyOf (some a) (some b))).getD [] ++
          [directMessage now freshId a b txt ts rt])⟩] := by
  have hsym := history_after_send s sid sid2 now freshId a b txt ts rt ha hb ht
  refine ⟨?_, rfl, rfl, hsym.1, hsym.2⟩
  rw [sendMessage_valid s sid now freshId a b txt ts rt ha hb ht]
  cases hu : mapGet s.users b with
  | none => simp [toOnline, usersGet, hu]
  | some u => simp [toOnline, usersGet, hu, hoff u hu]

/-- Witness for C5: `a@x` sends "hi" to `b@x`, who never registered. -/
theorem delivery_gating_witness :
    (sendMessage State.empty "s1" 7 "m1" (some "a@x") (some "b@x") (some "hi") none none).2 =
      [⟨Target.socket "s1", Out.messageSent (directMessage 7 "m1" "a@x" "b@x" "hi" none none)⟩] ∧
    (getMessages
        (sendMessage State.empty "s1" 7 "m1" (some "a@x") (some "b@x") (some "hi") none none).1
        "s2" (some "b@x") (some "a@x")).2 =
      [⟨Target.socket "s2", Out.messagesHistory
        ((mapGet State.empty.messages (chatKeyOf (some "a@x") (some "b@x"))).getD [] ++
          [directMessage 7 "m1" "a@x" "b@x" "hi" none none])⟩] :=
  have h := delivery_gating State.empty "s1" "s2" 7 "m1" "a@x" "b@x" "hi" none none
    (by decide) (by decide) (by decide) (by intro u hu; cases hu)
  ⟨h.1, h.2.2.2.2⟩

/-! ## Edit and delete -/

theorem findIndex_none (messageId : String) (l : List Msg)
    (h : findIndex messageId l = none) :
    l.find? (fun m => decide (m.id = messageId)) = none := by
  induction l with
  | nil => rfl
  | cons m rest ih =>
    by_cases hm : m.id = messageId
    · simp [findIndex, hm] at h
    · simp only [findIndex, hm, if_false, Option.map_eq_none'] at h
      simp [List.find?, hm, ih h]

theorem findIndex_some (messageId : String) (l : List Msg) (i : Nat)
    (h : findIndex messageId l = some i) :
    l[i]? = l.find? (fun m => decide (m.id = messageId)) := by
  induction l generalizing i with
  | nil => simp [findIndex] at h
  | cons m rest ih =>
    by_cases hm : m.id = messageId
    · simp only [findIndex, hm, if_true, Option.some.injEq] at h
      subst h
      simp [List.find?, hm]
    · simp only [findIndex, hm, if_false, Option.map_eq_some'] at h
      obtain ⟨j, hj, rfl⟩ := h
      simp [List.find?, hm, ih j hj]

theorem findIndex_append (messageId : String) (pre post : List Msg) (m : Msg)
    (hpre : ∀ x ∈ pre, x.id ≠ messageId) (hm : m.id = messageId) :
    findIndex messageId (pre ++ m :: post) = some pre.length := by
  induction pre with
  | nil => simp [findIndex, hm]
  | cons x rest ih =>
    have hx : x.id ≠ messageId := hpre x (List.mem_cons_self _ _)
    have := ih (fun y hy => hpre y (List.mem_cons_of_mem _ hy))
    simp [findIndex, hx, this]

theorem eraseIdx_append_cons (pre post : List Msg) (m : Msg) :
    (pre ++ m :: post).eraseIdx pre.length = pre ++ post := by
  induction pre with
  | nil => rfl
  | cons x rest ih => simp [List.eraseIdx, ih]

theorem getElem?_append_cons (pre post : List Msg) (m : Msg) :
    (pre ++ m :: post)[pre.length]? = some m := by
  induction pre with
  | nil => simp
  | cons x rest ih => simpa using ih

/-- C2: when the message addressed by `(chatKey, messageId)` (the first one with that id in
the log at `chatKey`) has a stored sender different from the requester, `edit-message` and
`delete-message` (for every `deleteFor`) return the store unchanged and emit nothing. -/
theorem mutation_authorization (s : State) (sid messageId chatKey newText : String)
    (senderId deleteFor : Option String) (m : Msg)
    (hm : ((mapGet s.messages chatKey).getD []).find? (fun x => decide (x.id = messageId))
      = some m)
    (hne : m.senderId ≠ senderId) :
    editMessage s messageId chatKey newText senderId = (s, []) ∧
    deleteMessage s sid messageId chatKey senderId deleteFor = (s, []) := by
  constructor
  · simp [editMessage, hm, hne]
  · cases hi : findIndex messageId ((mapGet s.messages chatKey).getD []) with
    | none => simp [deleteMessage, hi]
    | some idx =>
      have := findIndex_some messageId _ idx hi
      rw [hm] at this
      simp [deleteMessage, hi, this, hne]

/-- Witness for C2: `b@x` tries to edit and to delete a message stored with sender
`a@x`. -/
theorem mutation_authorization_witness :
    editMessage
        (sendMessage State.empty "s1" 7 "m1" (some "a@x") (some "b@x") (some "hi") none none).1
        "m1" "a@x::b@x" "bye" (some "b@x") =
      ((sendMessage State.empty "s1" 7 "m1" (some "a@x") (some "b@x") (some "hi") none none).1,
        []) ∧
    deleteMessage
        (sendMessage State.empty "s1" 7 "m1" (some "a@x") (some "b@x") (some "hi") none none).1
        "s2" "m1" "a@x::b@x" (some "b@x") (some "everyone") =
      ((sendMessage State.empty "s1" 7 "m1" (some "a@x") (some "b@x") (some "hi") none none).1,
        []) :=
  mutation_authorization
    (sendMessage State.empty "s1" 7 "m1" (some "a@x") (some "b@x") (some "hi") none none).1
    "s2" "m1" "a@x::b@x" "bye" (some "b@x") (some "everyone")
    (directMessage 7 "m1" "a@x" "b@x" "hi" none none) (by decide) (by decide)

/-- C7: let the log of the direct chat of `a` and `b` be `pre ++ m :: post` where `m` is
the first message with id `messageId` and `senderId` is its stored sender.  After
`delete-message` with `deleteFor = "everyone"` on the key of `(a, b)`, `get-messages`
returns `pre ++ post` in both argument orders, and no other chat log changed. -/
theorem delete_for_everyone (s : State) (sid sid2 messageId : String)
    (a b senderId : Option String) (pre post : List Msg) (m : Msg)
    (hlog : mapGet s.messages (chatKeyOf a b) = some (pre ++ m :: post))
    (hpre : ∀ x ∈ pre, x.id ≠ messageId) (hid : m.id = messageId)
    (hsender : m.senderId = senderId) :
    (getMessages (deleteMessage s sid messageId (chatKeyOf a b) senderId (some "everyone")).1
        sid2 a b).2 = [⟨Target.socket sid2, Out.messagesHistory (pre ++ post)⟩] ∧
    (getMessages (deleteMessage s sid messageId (chatKeyOf a b) senderId (some "everyone")).1
        sid2 b a).2 = [⟨Target.socket sid2, Out.messagesHistory (pre ++ post)⟩] ∧
    ∀ k, k ≠ chatKeyOf a b →
      mapGet (deleteMessage s sid messageId (chatKeyOf a b) senderId (some "everyone")).1.messages
        k = mapGet s.messages k := by
  have hdel : (deleteMessage s sid messageId (chatKeyOf a b) senderId (some "everyone")).1 =
      { s with messages := mapSet s.messages (chatKeyOf a b) (pre ++ post) } := by
    have hget : (pre ++ m :: post)[pre.length]? = some m := getElem?_append_cons pre post m
    simp only [deleteMessage, hlog, Option.getD_some,
      findIndex_append messageId pre post m hpre hid, hget, hsender, eraseIdx_append_cons]
    simp
  rw [hdel]
  refine ⟨?_, ?_, ?_⟩
  · simp [getMessages, mapGet_mapSet_self]
  · simp [getMessages, chatKeyOf_comm b a, mapGet_mapSet_self]
  · intro k hk
    exact mapGet_mapSet_ne _ _ _ _ hk

/-- Witness for C7: `a@x` sends two messages to `b@x` and deletes the first for everyone;
`b@x` then reads a history holding only the second. -/
theorem delete_for_everyone_witness :
    (getMessages (deleteMessage
        (run State.empty
          [Event.sendMessage "s1" 7 "m1" (some "a@x") (some "b@x") (some "hi") none none,
           Event.sendMessage "s1" 8 "m2" (some "a@x") (some "b@x") (some "yo") none none])
        "s1" "m1" (chatKeyOf (some "a@x") (some "b@x")) (some "a@x") (some "everyone")).1
      "s2" (some "b@x") (some "a@x")).2 =
    [⟨Target.socket "s2", Out.messagesHistory
      ([] ++ [directMessage 8 "m2" "a@x" "b@x" "yo" none none])⟩] :=
  (delete_for_everyone
    (run State.empty
      [Event.sendMessage "s1" 7 "m1" (some "a@x") (some "b@x") (some "hi") none none,
       Event.sendMessage "s1" 8 "m2" (some "a@x") (some "b@x") (some "yo") none none])
    "s1" "s2" "m1" (some "a@x") (some "b@x") (some "a@x") []
    [directMessage 8 "m2" "a@x" "b@x" "yo" none none]
    (directMessage 7 "m1" "a@x" "b@x" "hi" none none)
    (by decide) (by intro x hx; cases hx) (by decide) (by decide)).2.1

/-! ## Group auto-membership -/

theorem filter_isGroupUpdated_notifyAll (s : State) (ids : List (Option String)) (o : Out)
    (ho : isGroupUpdated ⟨Target.all, o⟩ = false) :
    (notifyAll s ids o).filter isGroupUpdated = [] := by
  have hone : ∀ id, (toOnline s id o).filter isGroupUpdated = [] := by
    intro id
    unfold toOnline
    have ht : ∀ t, isGroupUpdated ⟨t, o⟩ = false := fun t => ho
    cases usersGet s id with
    | none => rfl
    | some u =>
      by_cases hon : u.online = true
      · simp [hon, ht]
      · simp [hon]
  induction ids with
  | nil => rfl
  | cons id rest ih =>
    simp only [notifyAll, List.flatMap_cons, List.filter_append, hone] at ih ⊢
    simpa [notifyAll] using ih

theorem sendGroup_first (s : State) (gid : String) (sender : Option String) (g : Group)
    (p : GroupSend) (hg : mapGet s.groups gid = some g) (hnot : sender ∉ g.members)
    (ht : p.text ≠ "") :
    mapGet (step s (p.event gid sender)).1.groups gid =
      some { g with members := g.members ++ [sender] } ∧
    (step s (p.event gid sender)).2.filter isGroupUpdated =
      [⟨Target.all, Out.groupUpdated { g with members := g.members ++ [sender] }⟩] := by
  simp only [GroupSend.event, step, sendGroupMessage, hg, ht, if_false, hnot, decide_False,
    Bool.not_false, if_true]
  refine ⟨mapGet_mapSet_self _ _ _, ?_⟩
  rw [List.filter_append, filter_isGroupUpdated_notifyAll s _ (Out.receiveGroupMessage _ _) rfl]
  rfl

theorem sendGroup_later (s : State) (gid : String) (sender : Option String) (g : Group)
    (p : GroupSend) (hg : mapGet s.groups gid = some g) (hmem : sender ∈ g.members)
    (ht : p.text ≠ "") :
    mapGet (step s (p.event gid sender)).1.groups gid = some g ∧
    (step s (p.event gid sender)).2.filter isGroupUpdated = [] := by
  simp only [GroupSend.event, step, sendGroupMessage, hg, ht, if_false, hmem, decide_True,
    Bool.not_true]
  refine ⟨mapGet_mapSet_self _ _ _, ?_⟩
  rw [List.filter_append, filter_isGroupUpdated_notifyAll s _ (Out.receiveGroupMessage _ _) rfl]
  rfl

theorem sendGroup_member_many (gid : String) (sender : Option String) (g : Group)
    (hmem : sender ∈ g.members) :
    ∀ (sends : List GroupSend) (s : State), mapGet s.groups gid = some g →
      (∀ p ∈ sends, p.text ≠ "") →
      mapGet (run s (sends.map (GroupSend.event gid sender))).groups gid = some g ∧
      (outputs s (sends.map (GroupSend.event gid sender))).map
        (fun o => o.filter isGroupUpdated) = List.replicate sends.length []
  | [], s, hg, _ => ⟨hg, rfl⟩
  | p :: rest, s, hg, ht => by
    have h1 := sendGroup_later s gid sender g p hg hmem (ht p (List.mem_cons_self _ _))
    have h2 := sendGroup_member_many gid sender g hmem rest _ h1.1
      (fun q hq => ht q (List.mem_cons_of_mem _ hq))
    simp only [List.map_cons, run, outputs, List.length_cons, List.replicate_succ]
    exact ⟨h2.1, by rw [h1.2, h2.2]⟩

/-- C6: a sender who is not a member of an existing group sends `n ≥ 1` group messages with
non-empty text.  Afterwards the member array is the old one followed by the sender, who
occurs in it exactly once, and of the `n` handler runs only the first broadcasts
`group-updated` (once, with the extended group). -/
theorem group_auto_membership (s : State) (gid : String) (sender : Option String)
    (g : Group) (first : GroupSend) (later : List GroupSend)
    (hg : mapGet s.groups gid = some g) (hnot : sender ∉ g.members)
    (ht : ∀ p ∈ first :: later, p.text ≠ "") :
    mapGet (run s ((first :: later).map (GroupSend.event gid sender))).groups gid =
      some { g with members := g.members ++ [sender] } ∧
    (g.members ++ [sender]).count sender = 1 ∧
    (outputs s ((first :: later).map (GroupSend.event gid sender))).map
        (fun o => o.filter isGroupUpdated) =
      [⟨Target.all, Out.groupUpdated { g with members := g.members ++ [sender] }⟩] ::
        List.replicate later.length [] := by
  have h1 := sendGroup_first s gid sender g first hg hnot (ht first (List.mem_cons_self _ _))
  have h2 := sendGroup_member_many gid sender { g with members := g.members ++ [sender] }
    (by simp) later _ h1.1 (fun q hq => ht q (List.mem_cons_of_mem _ hq))
  refine ⟨?_, ?_, ?_⟩
  · simp only [List.map_cons, run]
    rw [h2.1]
  · rw [List.count_append, List.count_eq_zero_of_not_mem hnot]
    simp
  · simp only [List.map_cons, outputs]
    rw [h1.2, h2.2]

/-- Witness for C6: `b@x` sends three messages to the group that `a@x` created. -/
theorem group_auto_membership_witness :
    mapGet (run (createGroup State.empty "s1" 5 (some "Team") (some "@team") none
        (some "a@x")).1
      (([⟨6, "m1", "one", none, none⟩, ⟨7, "m2", "two", none, none⟩,
          ⟨8, "m3", "three", none, none⟩] : List GroupSend).map
        (GroupSend.event "g_5" (some "b@x")))).groups "g_5" =
      some { id := "g_5", name := "Team", username := "@team", type := "group",
             avatar := getColor "Team", members := [some "a@x"] ++ [some "b@x"],
             admins := [some "a@x"], createdBy := "a@x", createdAt := 5 } :=
  (group_auto_membership
    (createGroup State.empty "s1" 5 (some "Team") (some "@team") none (some "a@x")).1
    "g_5" (some "b@x")
    { id := "g_5", name := "Team", username := "@team", type := "group",
      avatar := getColor "Team", members := [some "a@x"], admins := [some "a@x"],
      createdBy := "a@x", createdAt := 5 }
    ⟨6, "m1", "one", none, none⟩
    [⟨7, "m2", "two", none, none⟩, ⟨8, "m3", "three", none, none⟩]
    (by decide) (by decide) (by decide)).1

/-! ## The first message with an id -/

theorem find?_append_cons (messageId : String) (pre post : List Msg) (m : Msg)
    (hpre : ∀ x ∈ pre, x.id ≠ messageId) (hm : m.id = messageId) :
    (pre ++ m :: post).find? (fun x => decide (x.id = messageId)) = some m := by
  induction pre with
  | nil => simp [List.find?, hm]
  | cons x rest ih =>
    have hx : x.id ≠ messageId := hpre x (List.mem_cons_self _ _)
    simp [List.find?, hx, ih (fun y hy => hpre y (List.mem_cons_of_mem _ hy))]

theorem updateFirst_append_cons (messageId : String) (f : Msg → Msg) (pre post : List Msg)
    (m : Msg) (hpre : ∀ x ∈ pre, x.id ≠ messageId) (hm : m.id = messageId) :
    updateFirst (fun x => decide (x.id = messageId)) f (pre ++ m :: post) =
      pre ++ f m :: post := by
  induction pre with
  | nil => simp [updateFirst, hm]
  | cons x rest ih =>
    have hx : x.id ≠ messageId := hpre x (List.mem_cons_self _ _)
    simp [updateFirst, hx, ih (fun y hy => hpre y (List.mem_cons_of_mem _ hy))]

/-! ## Members of maps and logs -/

theorem mem_mapSet {V : Type} (m : List (String × V)) (k : String) (v : V)
    (p : String × V) (h : p ∈ mapSet m k v) : p ∈ m ∨ p.2 = v := by
  induction m with
  | nil =>
    simp only [mapSet, List.mem_singleton] at h
    exact Or.inr (by rw [h])
  | cons q rest ih =>
    obtain ⟨k0, v0⟩ := q
    by_cases hk : k0 = k
    · simp only [mapSet, hk, if_true, List.mem_cons] at h
      rcases h with h | h
      · exact Or.inr (by rw [h])
      · exact Or.inl (List.mem_cons_of_mem _ h)
    · simp only [mapSet, hk, if_false, List.mem_cons] at h
      rcases h with h | h
      · exact Or.inl (by rw [h]; exact List.mem_cons_self _ _)
      · rcases ih h with h1 | h1
        · exact Or.inl (List.mem_cons_of_mem _ h1)
        · exact Or.inr h1

theorem mapGet_mem {V : Type} (m : List (String × V)) (k : String) (v : V)
    (h : mapGet m k = some v) : (k, v) ∈ m := by
  induction m with
  | nil => simp [mapGet] at h
  | cons q rest ih =>
    obtain ⟨k0, v0⟩ := q
    by_cases hk : k0 = k
    · simp only [mapGet, hk, if_true, Option.some.injEq] at h
      rw [hk, h]
      exact List.mem_cons_self _ _
    · simp only [mapGet, hk, if_false] at h
      exact List.mem_cons_of_mem _ (ih h)

theorem reactionsOk_getD (s : State) (hs : s.reactionsOk) (k : String) :
    ∀ m ∈ (mapGet s.messages k).getD [], m.reactionsOk := by
  intro m hm
  cases h : mapGet s.messages k with
  | none => simp [h] at hm
  | some chat =>
    rw [h] at hm
    exact hs (k, chat) (mapGet_mem _ _ _ h) m hm

theorem reactionsOk_mapSet (s : State) (hs : s.reactionsOk) (k : String) (chat : List Msg)
    (hchat : ∀ m ∈ chat, m.reactionsOk) (users : List (String × User))
    (online : List (String × String)) (groups : List (String × Group))
    (usernames : List String) :
    State.reactionsOk
      { users := users, online := online, messages := mapSet s.messages k chat,
        groups := groups, usernames := usernames } := by
  intro p hp m hm
  rcases mem_mapSet _ _ _ _ hp with h | h
  · exact hs p h m hm
  · rw [h] at hm
    exact hchat m hm

theorem reactionsOk_pushMessage (s : State) (hs : s.reactionsOk) (k : String) (msg : Msg)
    (hmsg : msg.reactionsOk) (users : List (String × User))
    (online : List (String × String)) (groups : List (String × Group))
    (usernames : List String) :
    State.reactionsOk
      { users := users, online := online, messages := pushMessage s.messages k msg,
        groups := groups, usernames := usernames } := by
  intro p hp m hm
  unfold pushMessage at hp
  simp only at hp
  have hold : ∀ x ∈ (mapGet (if mapHas s.messages k then s.messages
      else mapSet s.messages k []) k).getD [], x.reactionsOk := by
    intro x hx
    split at hx
    · exact reactionsOk_getD s hs k x hx
    · simp [mapGet_mapSet_self] at hx
  rcases mem_mapSet _ _ _ _ hp with h | h
  · split at h
    · exact hs p h m hm
    · rcases mem_mapSet _ _ _ _ h with h1 | h1
      · exact hs p h1 m hm
      · rw [h1] at hm
        cases hm
  · rw [h] at hm
    rcases List.mem_append.mp hm with h1 | h1
    · exact hold m h1
    · rw [List.mem_singleton.mp h1]
      exact hmsg

theorem mem_updateFirst (p : Msg → Bool) (f : Msg → Msg) (l : List Msg) (x : Msg)
    (h : x ∈ updateFirst p f l) : x ∈ l ∨ ∃ y ∈ l, x = f y := by
  induction l with
  | nil => simp [updateFirst] at h
  | cons m rest ih =>
    by_cases hp : p m = true
    · simp only [updateFirst, hp, if_true, List.mem_cons] at h
      rcases h with h | h
      · exact Or.inr ⟨m, List.mem_cons_self _ _, h⟩
      · exact Or.inl (List.mem_cons_of_mem _ h)
    · simp only [updateFirst, hp] at h
      rcases List.mem_cons.mp h with h1 | h1
      · exact Or.inl (h1 ▸ List.mem_cons_self _ _)
      · rcases ih h1 with h2 | ⟨y, hy, hxy⟩
        · exact Or.inl (List.mem_cons_of_mem _ h2)
        · exact Or.inr ⟨y, List.mem_cons_of_mem _ hy, hxy⟩

/-! ## One session per user -/

theorem mem_keys_mapSet {V : Type} (m : List (String × V)) (k : String) (v : V) (x : String)
    (h : x ∈ (mapSet m k v).map Prod.fst) : x ∈ m.map Prod.fst ∨ x = k := by
  induction m with
  | nil =>
    simp only [mapSet, List.map_cons, List.map_nil, List.mem_singleton] at h
    exact Or.inr h
  | cons q rest ih =>
    obtain ⟨k0, v0⟩ := q
    by_cases hk : k0 = k
    · simp only [mapSet, hk, if_true, List.map_cons, List.mem_cons] at h
      rcases h with h | h
      · exact Or.inr h
      · exact Or.inl (by simp [h])
    · simp only [mapSet, hk, if_false, List.map_cons, List.mem_cons] at h
      rcases h with h | h
      · exact Or.inl (by simp [h])
      · rcases ih h with h1 | h1
        · exact Or.inl (List.mem_cons_of_mem _ h1)
        · exact Or.inr h1

theorem nodup_keys_mapSet {V : Type} (m : List (String × V)) (k : String) (v : V)
    (h : (m.map Prod.fst).Nodup) : ((mapSet m k v).map Prod.fst).Nodup := by
  induction m with
  | nil => simp [mapSet]
  | cons q rest ih =>
    obtain ⟨k0, v0⟩ := q
    have hrest := (List.nodup_cons.mp h).2
    have hk0 := (List.nodup_cons.mp h).1
    by_cases hk : k0 = k
    · simpa [mapSet, hk] using h
    · simp only [mapSet, hk, if_false, List.map_cons]
      refine List.nodup_cons.mpr ⟨?_, ih hrest⟩
      intro hin
      rcases mem_keys_mapSet _ _ _ _ hin with h1 | h1
      · exact hk0 h1
      · exact hk h1

theorem mem_keys_mapDelete {V : Type} (m : List (String × V)) (k x : String)
    (h : x ∈ (mapDelete m k).map Prod.fst) : x ∈ m.map Prod.fst := by
  induction m with
  | nil => simp [mapDelete] at h
  | cons q rest ih =>
    obtain ⟨k0, v0⟩ := q
    by_cases hk : k0 = k
    · simp only [mapDelete, hk, if_true] at h
      exact List.mem_cons_of_mem _ (ih h)
    · simp only [mapDelete, hk, if_false, List.map_cons, List.mem_cons] at h
      rcases h with h | h
      · simp [h]
      · exact List.mem_cons_of_mem _ (ih h)

theorem nodup_keys_mapDelete {V : Type} (m : List (String × V)) (k : String)
    (h : (m.map Prod.fst).Nodup) : ((mapDelete m k).map Prod.fst).Nodup := by
  induction m with
  | nil => simp [mapDelete]
  | cons q rest ih =>
    obtain ⟨k0, v0⟩ := q
    have hrest := (List.nodup_cons.mp h).2
    have hk0 := (List.nodup_cons.mp h).1
    by_cases hk : k0 = k
    · simpa [mapDelete, hk] using ih hrest
    · simp only [mapDelete, hk, if_false, List.map_cons]
      exact List.nodup_cons.mpr ⟨fun hin => hk0 (mem_keys_mapDelete _ _ _ hin), ih hrest⟩

theorem mapGet_of_mem {V : Type} (m : List (String × V)) (k : String) (v : V)
    (hnodup : (m.map Prod.fst).Nodup) (h : (k, v) ∈ m) : mapGet m k = some v := by
  induction m with
  | nil => cases h
  | cons q rest ih =>
    obtain ⟨k0, v0⟩ := q
    have hrest := (List.nodup_cons.mp hnodup).2
    have hk0 := (List.nodup_cons.mp hnodup).1
    rcases List.mem_cons.mp h with h1 | h1
    · cases h1
      simp [mapGet]
    · have hne : k0 ≠ k := by
        intro hk
        exact hk0 (by rw [hk]; exact List.mem_map.mpr ⟨(k, v), h1, rfl⟩)
      simp [mapGet, hne, ih hrest h1]

theorem sessionInv_registerUpsert (s : State) (hs : SessionInv s) (names : List String)
    (sid : String) (hsid : sid ≠ "") (now : Nat) (email name : String)
    (username avatar : Option String) :
    SessionInv (registerUpsert s names sid now email name username avatar).1 := by
  obtain ⟨hnodup, hinv⟩ := hs
  unfold registerUpsert
  simp only
  constructor
  · apply nodup_keys_mapSet
    split
    · split
      · exact nodup_keys_mapDelete _ _ hnodup
      · exact hnodup
    · exact hnodup
  · intro sid1 email1 hget
    by_cases hs1 : sid1 = sid
    · subst hs1
      rw [mapGet_mapSet_self] at hget
      cases hget
      exact ⟨hsid, _, mapGet_mapSet_self _ _ _, rfl⟩
    · rw [mapGet_mapSet_ne _ _ _ _ hs1] at hget
      have hold : mapGet s.online sid1 = some email1 ∧
          ∀ old, mapGet s.users email = some old → old.socketId ≠ "" →
            old.socketId ≠ sid → old.socketId ≠ sid1 := by
        cases hu : mapGet s.users email with
        | none =>
          rw [hu] at hget
          exact ⟨hget, fun old h => by cases h⟩
        | some old =>
          rw [hu] at hget
          simp only at hget
          by_cases hdel : (old.socketId != "" && old.socketId != sid) = true
          · rw [if_pos hdel] at hget
            by_cases hsame : sid1 = old.socketId
            · rw [hsame, mapGet_mapDelete_self] at hget
              cases hget
            · rw [mapGet_mapDelete_ne _ _ _ hsame] at hget
              refine ⟨hget, fun old1 h _ _ => ?_⟩
              cases h
              exact fun h => hsame h.symm
          · rw [if_neg hdel] at hget
            refine ⟨hget, fun old1 h h1 h2 => ?_⟩
            cases h
            exact absurd (by simp [h1, h2]) hdel
      obtain ⟨hne, u, hu, husid⟩ := hinv sid1 email1 hold.1
      refine ⟨hne, ?_⟩
      by_cases he : email1 = email
      · subst he
        exact absurd husid (hold.2 u hu (by rw [husid]; exact hne) (by rw [husid]; exact hs1))
      · exact ⟨u, by rw [mapGet_mapSet_ne _ _ _ _ he]; exact hu, husid⟩

theorem sessionInv_register (s : State) (hs : SessionInv s) (sid : String) (hsid : sid ≠ "")
    (now : Nat) (email name username avatar : Option String) :
    SessionInv (register s sid now email name username avatar).1 := by
  simp only [register]
  split
  · split_ifs <;>
      first
      | exact hs
      | exact sessionInv_registerUpsert s hs _ sid hsid now _ _ username avatar
  · exact hs

theorem sessionInv_disconnect (s : State) (hs : SessionInv s) (sid : String) (now : Nat) :
    SessionInv (disconnect s sid now).1 := by
  obtain ⟨hnodup, hinv⟩ := hs
  have hdel : ∀ users1 : List (String × User),
      (∀ sid1 email1, mapGet s.online sid1 = some email1 →
        ∃ u, mapGet users1 email1 = some u ∧ u.socketId = sid1) →
      SessionInv { s with users := users1, online := mapDelete s.online sid } := by
    intro users1 h1
    refine ⟨nodup_keys_mapDelete _ _ hnodup, ?_⟩
    intro sid1 email1 hget
    by_cases hsame : sid1 = sid
    · rw [hsame] at hget
      simp only [mapGet_mapDelete_self] at hget
      cases hget
    · simp only [mapGet_mapDelete_ne _ _ _ hsame] at hget
      exact ⟨(hinv sid1 email1 hget).1, h1 sid1 email1 hget⟩
  unfold disconnect
  split
  · split_ifs
    · exact ⟨hnodup, hinv⟩
    · split
      · rename_i email _ _ _ user huser
        apply hdel
        intro sid1 email1 hget
        obtain ⟨_, u, hu, husid⟩ := hinv sid1 email1 hget
        by_cases he : email1 = email
        · subst he
          rw [huser] at hu
          cases hu
          exact ⟨_, mapGet_mapSet_self _ _ _, husid⟩
        · exact ⟨u, by rw [mapGet_mapSet_ne _ _ _ _ he]; exact hu, husid⟩
      · apply hdel
        intro sid1 email1 hget
        exact (hinv sid1 email1 hget).2
  · exact ⟨hnodup, hinv⟩

theorem step_users_online (s : State) (e : Event)
    (hreg : ∀ sid now email name username avatar,
      e ≠ Event.register sid now email name username avatar)
    (hdis : ∀ sid now, e ≠ Event.disconnect sid now) :
    (step s e).1.users = s.users ∧ (step s e).1.online = s.online := by
  cases e with
  | register sid now email name username avatar => exact absurd rfl (hreg _ _ _ _ _ _)
  | disconnect sid now => exact absurd rfl (hdis _ _)
  | sendMessage sid now freshId senderId receiverId text timestamp replyTo =>
    simp only [step, sendMessage]
    split
    · split_ifs <;> exact ⟨rfl, rfl⟩
    · exact ⟨rfl, rfl⟩
  | getMessages sid user1 user2 => exact ⟨rfl, rfl⟩
  | markAsRead senderId receiverId => exact ⟨rfl, rfl⟩
  | editMessage messageId chatKey newText senderId =>
    simp only [step, editMessage]
    split
    · split_ifs <;> exact ⟨rfl, rfl⟩
    · exact ⟨rfl, rfl⟩
  | deleteMessage sid messageId chatKey senderId deleteFor =>
    simp only [step, deleteMessage]
    split
    · exact ⟨rfl, rfl⟩
    · split
      · exact ⟨rfl, rfl⟩
      · split_ifs <;> exact ⟨rfl, rfl⟩
  | typing senderId receiverId isTyping => exact ⟨rfl, rfl⟩
  | createGroup sid now name username type createdBy =>
    simp only [step, createGroup]
    split
    · split_ifs <;> exact ⟨rfl, rfl⟩
    · exact ⟨rfl, rfl⟩
  | joinGroup groupId userId =>
    simp only [step, joinGroup]
    split
    · exact ⟨rfl, rfl⟩
    · split <;> exact ⟨rfl, rfl⟩
  | leaveGroup sid groupId userId =>
    simp only [step, leaveGroup]
    split
    · exact ⟨rfl, rfl⟩
    · split <;> exact ⟨rfl, rfl⟩
  | sendGroupMessage now freshId groupId senderId text timestamp replyTo =>
    simp only [step, sendGroupMessage]
    split
    · split
      · exact ⟨rfl, rfl⟩
      · split_ifs <;> exact ⟨rfl, rfl⟩
    · exact ⟨rfl, rfl⟩
  | getGroupMessages sid groupId => exact ⟨rfl, rfl⟩
  | addReaction messageId chatKey emoji userId =>
    simp only [step, addReaction]
    split
    · exact ⟨rfl, rfl⟩
    · split <;> exact ⟨rfl, rfl⟩
  | search sid query =>
    simp only [step, search]
    split_ifs <;> exact ⟨rfl, rfl⟩

theorem sessionInv_step (s : State) (hs : SessionInv s) (e : Event) (he : e.sidOk = true) :
    SessionInv (step s e).1 := by
  by_cases hreg : ∃ sid now email name username avatar,
      e = Event.register sid now email name username avatar
  · obtain ⟨sid, now, email, name, username, avatar, rfl⟩ := hreg
    have hsid : sid ≠ "" := by simpa [Event.sidOk] using he
    exact sessionInv_register s hs sid hsid now email name username avatar
  · by_cases hdis : ∃ sid now, e = Event.disconnect sid now
    · obtain ⟨sid, now, rfl⟩ := hdis
      exact sessionInv_disconnect s hs sid now
    · have h := step_users_online s e
        (fun sid now email name username avatar h =>
          hreg ⟨sid, now, email, name, username, avatar, h⟩)
        (fun sid now h => hdis ⟨sid, now, h⟩)
      unfold SessionInv
      rw [h.1, h.2]
      exact hs

theorem sessionInv_run (es : List Event) :
    ∀ s : State, SessionInv s → (∀ e ∈ es, e.sidOk = true) → SessionInv (run s es) := by
  induction es with
  | nil => exact fun s hs _ => hs
  | cons e rest ih =>
    intro s hs hok
    exact ih _ (sessionInv_step s hs e (hok e (List.mem_cons_self _ _)))
      (fun x hx => hok x (List.mem_cons_of_mem _ hx))

theorem length_le_one_of_all_eq {α : Type} (l : List α) (a : α) (hnodup : l.Nodup)
    (hall : ∀ x ∈ l, x = a) : l.length ≤ 1 := by
  match l, hnodup, hall with
  | [], _, _ => simp
  | [_], _, _ => simp
  | x :: y :: rest, hnodup, hall =>
    have hx := hall x (List.mem_cons_self _ _)
    have hy := hall y (List.mem_cons_of_mem _ (List.mem_cons_self _ _))
    have := (List.nodup_cons.mp hnodup).1
    rw [hx, hy] at this
    exact absurd (List.mem_cons_self _ _) this

/-- C10: in every store reached from the empty store by any sequence of events in which
`register` arrives on non-empty session ids (in particular by any sequence of `register`
and `disconnect` events), an identity is the value of at most one entry of the `online`
map, and the key of such an entry is the `socketId` stored in the identity's user
record. -/
theorem one_session_per_user (es : List Event) (hsid : ∀ e ∈ es, e.sidOk = true)
    (email : String) :
    ((run State.empty es).online.filter (fun p => decide (p.2 = email))).length ≤ 1 ∧
    ∀ sid, (sid, email) ∈ (run State.empty es).online →
      ∃ u, mapGet (run State.empty es).users email = some u ∧ u.socketId = sid := by
  have hinv : SessionInv (run State.empty es) :=
    sessionInv_run es State.empty ⟨List.nodup_nil, fun sid email h => by cases h⟩ hsid
  obtain ⟨hnodup, hget⟩ := hinv
  have hlink : ∀ sid, (sid, email) ∈ (run State.empty es).online →
      ∃ u, mapGet (run State.empty es).users email = some u ∧ u.socketId = sid :=
    fun sid hmem => (hget sid email (mapGet_of_mem _ _ _ hnodup hmem)).2
  refine ⟨?_, hlink⟩
  have hpairs : ((run State.empty es).online).Nodup := List.Nodup.of_map _ hnodup
  cases hfil : (run State.empty es).online.filter (fun p => decide (p.2 = email)) with
  | nil => simp
  | cons p rest =>
    have hp : p ∈ (run State.empty es).online.filter (fun p => decide (p.2 = email)) := by
      rw [hfil]; exact List.mem_cons_self _ _
    rw [← hfil]
    apply length_le_one_of_all_eq _ p (hpairs.filter _)
    intro x hx
    have hx1 := List.mem_filter.mp hx
    have hp1 := List.mem_filter.mp hp
    have hx2 : x.2 = email := by simpa using hx1.2
    have hp2 : p.2 = email := by simpa using hp1.2
    obtain ⟨u, hu, hus⟩ := hlink x.1 (by rw [← hx2]; exact hx1.1)
    obtain ⟨v, hv, hvs⟩ := hlink p.1 (by rw [← hp2]; exact hp1.1)
    rw [hu] at hv
    cases hv
    exact Prod.ext (hus.symm.trans hvs) (hx2.trans hp2.symm)

/-- Witness for C10: `a@x` registers on `s1`, registers again on `s2`, and `s1`
disconnects; `a@x` has the single entry `s2`. -/
theorem one_session_per_user_witness :
    ((run State.empty
        [Event.register "s1" 1 (some "a@x") (some "A") none none,
         Event.register "s2" 2 (some "a@x") (some "A") none none,
         Event.disconnect "s1" 3]).online.filter
      (fun p => decide (p.2 = "a@x"))).length ≤ 1 :=
  (one_session_per_user
    [Event.register "s1" 1 (some "a@x") (some "A") none none,
     Event.register "s2" 2 (some "a@x") (some "A") none none,
     Event.disconnect "s1" 3] (by decide) "a@x").1

/-! ## Group handles -/

theorem mem_setAdd (s : List String) (x y : String) (h : x ∈ s) : x ∈ setAdd s y := by
  unfold setAdd
  split
  · exact h
  · exact List.mem_append_left _ h

theorem mem_setAdd_self (s : List String) (y : String) : y ∈ setAdd s y := by
  unfold setAdd
  split
  · assumption
  · simp

theorem step_usernames_mono (s : State) (e : Event) (x : String) (h : x ∈ s.usernames) :
    x ∈ (step s e).1.usernames := by
  cases e with
  | register sid now email name username avatar =>
    simp only [step, register, registerUpsert]
    split
    · split_ifs <;> first | exact h | exact mem_setAdd _ _ _ h
    · exact h
  | sendMessage sid now freshId senderId receiverId text timestamp replyTo =>
    simp only [step, sendMessage]
    split
    · split_ifs <;> exact h
    · exact h
  | getMessages sid user1 user2 => exact h
  | markAsRead senderId receiverId => exact h
  | editMessage messageId chatKey newText senderId =>
    simp only [step, editMessage]
    split
    · split_ifs <;> exact h
    · exact h
  | deleteMessage sid messageId chatKey senderId deleteFor =>
    simp only [step, deleteMessage]
    split
    · exact h
    · split
      · exact h
      · split_ifs <;> exact h
  | typing senderId receiverId isTyping => exact h
  | createGroup sid now name username type createdBy =>
    simp only [step, createGroup]
    split
    · split_ifs <;> first | exact h | exact mem_setAdd _ _ _ h
    · exact h
  | joinGroup groupId userId =>
    simp only [step, joinGroup]
    split
    · exact h
    · split <;> exact h
  | leaveGroup sid groupId userId =>
    simp only [step, leaveGroup]
    split
    · exact h
    · split <;> exact h
  | sendGroupMessage now freshId groupId senderId text timestamp replyTo =>
    simp only [step, sendGroupMessage]
    split
    · split
      · exact h
      · split_ifs <;> exact h
    · exact h
  | getGroupMessages sid groupId => exact h
  | addReaction messageId chatKey emoji userId =>
    simp only [step, addReaction]
    split
    · exact h
    · split <;> exact h
  | search sid query =>
    simp only [step, search]
    split_ifs <;> exact h
  | disconnect sid now =>
    simp only [step, disconnect]
    split
    · split_ifs
      · exact h
      · split <;> exact h
    · exact h

theorem run_usernames_mono (es : List Event) :
    ∀ (s : State) (x : String), x ∈ s.usernames → x ∈ (run s es).usernames := by
  induction es with
  | nil => exact fun s x h => h
  | cons e rest ih => exact fun s x h => ih _ x (step_usernames_mono s e x h)

theorem createGroup_ok (s : State) (sid : String) (now : Nat) (n h c : String)
    (ty : Option String) (hn : n ≠ "") (hh : h ≠ "") (hc : c ≠ "")
    (hfree : replaceAt h ∉ s.usernames) :
    createGroup s sid now (some n) (some h) ty (some c) =
      ({ s with
         groups := mapSet s.groups ("g_" ++ toString now) (groupRecord now n (replaceAt h) ty c),
         usernames := setAdd s.usernames (replaceAt h) },
       [⟨Target.all, Out.newGroup (groupRecord now n (replaceAt h) ty c)⟩,
        ⟨Target.socket sid, Out.groupCreated (groupRecord now n (replaceAt h) ty c)⟩]) := by
  simp [createGroup, hn, hh, hc, hfree]

theorem createGroup_taken (s : State) (sid : String) (now : Nat) (n h c : String)
    (ty : Option String) (hn : n ≠ "") (hh : h ≠ "") (hc : c ≠ "")
    (htaken : replaceAt h ∈ s.usernames) :
    createGroup s sid now (some n) (some h) ty (some c) =
      (s, [⟨Target.socket sid, Out.groupError ("@" ++ replaceAt h ++ " allaqachon band!")⟩]) := by
  simp [createGroup, hn, hh, hc, htaken]

theorem replaceAt_cons_at (x : String) : replaceAt ("@" ++ x) = x := by
  cases x with
  | mk l => simp [replaceAt, String.append]

theorem replaceAt_of_not_mem (x : String) (h : '@' ∉ x.data) : replaceAt x = x := by
  cases x with
  | mk l => simp only [replaceAt, List.erase_of_not_mem h]

theorem append_at_injective (c d : String) (h : "@" ++ c = "@" ++ d) : c = d := by
  cases c with
  | mk l =>
    cases d with
    | mk r =>
      have h1 := congrArg String.data h
      simp only [String.data_append] at h1
      have h2 := List.append_cancel_left h1
      rw [h2]

theorem map_username_mapSet_same (m : List (String × Group)) (k : String) (v0 v : Group)
    (hget : mapGet m k = some v0) (hname : v.username = v0.username) :
    (mapSet m k v).map (fun p => p.2.username) = m.map (fun p => p.2.username) := by
  induction m with
  | nil => simp [mapGet] at hget
  | cons q rest ih =>
    obtain ⟨k0, w⟩ := q
    by_cases hk : k0 = k
    · simp only [mapGet, hk, if_true, Option.some.injEq] at hget
      simp [mapSet, hk, hname, hget]
    · simp only [mapGet, hk, if_false] at hget
      simp [mapSet, hk, ih hget]

theorem nodup_usernames_mapSet_new (m : List (String × Group)) (k : String) (v : Group)
    (hnodup : (m.map (fun p => p.2.username)).Nodup)
    (hnew : v.username ∉ m.map (fun p => p.2.username)) :
    ((mapSet m k v).map (fun p => p.2.username)).Nodup := by
  induction m with
  | nil => simp [mapSet]
  | cons q rest ih =>
    obtain ⟨k0, w⟩ := q
    simp only [List.map_cons, List.nodup_cons, List.mem_cons, not_or] at hnodup hnew
    by_cases hk : k0 = k
    · simp only [mapSet, hk, if_true, List.map_cons, List.nodup_cons]
      exact ⟨hnew.2, hnodup.2⟩
    · simp only [mapSet, hk, if_false, List.map_cons, List.nodup_cons]
      refine ⟨?_, ih hnodup.2 hnew.2⟩
      intro hin
      obtain ⟨p, hp, hpn⟩ := List.mem_map.mp hin
      rcases mem_mapSet _ _ _ _ hp with h1 | h1
      · exact hnodup.1 (List.mem_map.mpr ⟨p, h1, hpn⟩)
      · rw [h1] at hpn
        exact hnew.1 hpn

theorem groupInv_mono (groups : List (String × Group)) (u1 u2 : List String)
    (hsub : ∀ x ∈ u1, x ∈ u2) (h : GroupInv groups u1) : GroupInv groups u2 :=
  ⟨fun p hp => let ⟨c, hc, hpc⟩ := h.1 p hp; ⟨c, hsub c hc, hpc⟩, h.2⟩

theorem groupInv_update (groups : List (String × Group)) (usernames : List String)
    (gid : String) (group group1 : Group) (hget : mapGet groups gid = some group)
    (hname : group1.username = group.username) (h : GroupInv groups usernames) :
    GroupInv (mapSet groups gid group1) usernames := by
  refine ⟨?_, ?_⟩
  · intro p hp
    rcases mem_mapSet _ _ _ _ hp with h1 | h1
    · exact h.1 p h1
    · obtain ⟨c, hc, hgc⟩ := h.1 (gid, group) (mapGet_mem _ _ _ hget)
      exact ⟨c, hc, by rw [h1, hname]; exact hgc⟩
  · rw [map_username_mapSet_same groups gid group group1 hget hname]
    exact h.2

theorem groupInv_create (groups : List (String × Group)) (usernames : List String)
    (gid clean : String) (group : Group) (hname : group.username = "@" ++ clean)
    (hfree : clean ∉ usernames) (h : GroupInv groups usernames) :
    GroupInv (mapSet groups gid group) (setAdd usernames clean) := by
  refine ⟨?_, ?_⟩
  · intro p hp
    rcases mem_mapSet _ _ _ _ hp with h1 | h1
    · obtain ⟨c, hc, hpc⟩ := h.1 p h1
      exact ⟨c, mem_setAdd _ _ _ hc, hpc⟩
    · exact ⟨clean, mem_setAdd_self _ _, by rw [h1, hname]⟩
  · apply nodup_usernames_mapSet_new _ _ _ h.2
    intro hin
    obtain ⟨p, hp, hpn⟩ := List.mem_map.mp hin
    obtain ⟨c, hc, hpc⟩ := h.1 p hp
    have : "@" ++ c = "@" ++ clean := by rw [← hpc, ← hname]; exact hpn
    exact hfree (append_at_injective _ _ this ▸ hc)

theorem groupInv_step (s : State) (h : GroupInv s.groups s.usernames) (e : Event) :
    GroupInv (step s e).1.groups (step s e).1.usernames := by
  cases e with
  | register sid now email name username avatar =>
    simp only [step, register, registerUpsert]
    split
    · split_ifs <;>
        first
        | exact h
        | exact groupInv_mono _ _ _ (fun x hx => mem_setAdd _ _ _ hx) h
    · exact h
  | sendMessage sid now freshId senderId receiverId text timestamp replyTo =>
    simp only [step, sendMessage]
    split
    · split_ifs <;> exact h
    · exact h
  | getMessages sid user1 user2 => exact h
  | markAsRead senderId receiverId => exact h
  | editMessage messageId chatKey newText senderId =>
    simp only [step, editMessage]
    split
    · split_ifs <;> exact h
    · exact h
  | deleteMessage sid messageId chatKey senderId deleteFor =>
    simp only [step, deleteMessage]
    split
    · exact h
    · split
      · exact h
      · split_ifs <;> exact h
  | typing senderId receiverId isTyping => exact h
  | createGroup sid now name username type createdBy =>
    simp only [step, createGroup]
    split
    · split_ifs <;>
        first
        | exact h
        | exact groupInv_create _ _ _ _ _ rfl (by assumption) h
    · exact h
  | joinGroup groupId userId =>
    simp only [step, joinGroup]
    split
    · exact h
    · split
      · exact h
      · rename_i hget
        split_ifs <;> exact groupInv_update _ _ _ _ _ hget rfl h
  | leaveGroup sid groupId userId =>
    simp only [step, leaveGroup]
    split
    · exact h
    · split
      · exact h
      · rename_i hget
        exact groupInv_update _ _ _ _ _ hget rfl h
  | sendGroupMessage now freshId groupId senderId text timestamp replyTo =>
    simp only [step, sendGroupMessage]
    split
    · split
      · exact h
      · rename_i hget
        split_ifs <;>
          first
          | exact h
          | exact groupInv_update _ _ _ _ _ hget rfl h
    · exact h
  | getGroupMessages sid groupId => exact h
  | addReaction messageId chatKey emoji userId =>
    simp only [step, addReaction]
    split
    · exact h
    · split <;> exact h
  | search sid query =>
    simp only [step, search]
    split_ifs <;> exact h
  | disconnect sid now =>
    simp only [step, disconnect]
    split
    · split_ifs
      · exact h
      · split <;> exact h
    · exact h

theorem groupInv_run (es : List Event) :
    ∀ s : State, GroupInv s.groups s.usernames →
      GroupInv (run s es).groups (run s es).usernames := by
  induction es with
  | nil => exact fun s h => h
  | cons e rest ih => exact fun s h => ih _ (groupInv_step s h e)

theorem groupInv_reachable (es : List Event) :
    GroupInv (run State.empty es).groups (run State.empty es).usernames :=
  groupInv_run es State.empty ⟨fun p hp => (by cases hp), List.nodup_nil⟩

theorem filter_length_le_one_of_nodup_map {α β : Type} [DecidableEq β] (f : α → β)
    (l : List α) (b : β) (h : (l.map f).Nodup) :
    (l.filter (fun x => decide (f x = b))).length ≤ 1 := by
  induction l with
  | nil => simp
  | cons x rest ih =>
    simp only [List.map_cons, List.nodup_cons] at h
    by_cases hx : f x = b
    · have hnone : rest.filter (fun y => decide (f y = b)) = [] := by
        apply List.filter_eq_nil_iff.mpr
        intro y hy hfy
        have : f y = b := by simpa using hfy
        exact h.1 (List.mem_map.mpr ⟨y, hy, this.trans hx.symm⟩)
      simp [List.filter, hx, hnone]
    · have := ih h.2
      simpa [List.filter, hx] using this

/-- C9 as stated fails: after `create-group` with handle `a@b` (cleaned to `ab`), a
`create-group` with the same handle preceded by `@` is cleaned to `a@b`, is not rejected
and broadcasts `new-group`; and after `create-group` with handle `team` a different group
created at the same clock value reuses the id `g_5` and replaces the record, so that no
group with handle `@team` is left. -/
theorem group_creation_conflict_counterexample :
    createGroup (createGroup State.empty "s1" 5 (some "T") (some "a@b") none (some "u@x")).1
        "s2" 6 (some "T2") (some "@a@b") none (some "v@x") =
      ({ users := [], online := [], messages := [],
         groups := [("g_5", groupRecord 5 "T" "ab" none "u@x"),
                    ("g_6", groupRecord 6 "T2" "a@b" none "v@x")],
         usernames := ["ab", "a@b"] },
       [⟨Target.all, Out.newGroup (groupRecord 6 "T2" "a@b" none "v@x")⟩,
        ⟨Target.socket "s2", Out.groupCreated (groupRecord 6 "T2" "a@b" none "v@x")⟩]) ∧
    ((run State.empty
        [Event.createGroup "s1" 5 (some "Team") (some "team") none (some "u@x"),
         Event.createGroup "s2" 5 (some "Other") (some "other") none (some "v@x"),
         Event.createGroup "s3" 6 (some "Team") (some "@team") none (some "w@x")]).groups.filter
      (fun p => decide (p.2.username = "@team"))).length = 0 := by
  constructor
  · decide
  · decide

/-- C9 (amended): let a `create-group` with non-empty name, handle `h` and creator meet a
handle set without the cleaned handle (`h` with its first `@` removed), so that it
succeeds.  After any further events, a `create-group` with non-empty name and creator whose
cleaned handle equals the cleaned `h` returns the store unchanged and emits exactly one
event, `group-error` to the caller (so no `new-group`).  A handle `x` without `@` and `@x`
have the same cleaned form.  In every store reached from the empty store at most one group
record carries a given handle. -/
theorem group_creation_conflict (s : State) (sid sid2 : String) (now now2 : Nat)
    (n h c n2 h2 c2 : String) (ty ty2 : Option String) (es : List Event)
    (hn : n ≠ "") (hh : h ≠ "") (hc : c ≠ "") (hfree : replaceAt h ∉ s.usernames)
    (hn2 : n2 ≠ "") (hh2 : h2 ≠ "") (hc2 : c2 ≠ "")
    (hsame : replaceAt h2 = replaceAt h) :
    (createGroup s sid now (some n) (some h) ty (some c)).2 =
      [⟨Target.all, Out.newGroup (groupRecord now n (replaceAt h) ty c)⟩,
       ⟨Target.socket sid, Out.groupCreated (groupRecord now n (replaceAt h) ty c)⟩] ∧
    createGroup (run (createGroup s sid now (some n) (some h) ty (some c)).1 es)
        sid2 now2 (some n2) (some h2) ty2 (some c2) =
      (run (createGroup s sid now (some n) (some h) ty (some c)).1 es,
       [⟨Target.socket sid2, Out.groupError ("@" ++ replaceAt h ++ " allaqachon band!")⟩]) ∧
    (∀ x : String, '@' ∉ x.data → replaceAt ("@" ++ x) = replaceAt x) ∧
    ∀ (es0 : List Event) (handle : String),
      ((run State.empty es0).groups.filter
        (fun p => decide (p.2.username = handle))).length ≤ 1 := by
  have hok := createGroup_ok s sid now n h c ty hn hh hc hfree
  refine ⟨by rw [hok], ?_, ?_, ?_⟩
  · have hin : replaceAt h2 ∈
        (run (createGroup s sid now (some n) (some h) ty (some c)).1 es).usernames := by
      apply run_usernames_mono
      rw [hok, hsame]
      exact mem_setAdd_self _ _
    rw [createGroup_taken _ sid2 now2 n2 h2 c2 ty2 hn2 hh2 hc2 hin, hsame]
  · intro x hx
    rw [replaceAt_cons_at, replaceAt_of_not_mem x hx]
  · intro es0 handle
    exact filter_length_le_one_of_nodup_map (fun p : String × Group => p.2.username) _ handle
      (groupInv_reachable es0).2

/-- Witness for C9: `team` is created, a user registers, and `@team` is then rejected. -/
theorem group_creation_conflict_witness :
    createGroup (run (createGroup State.empty "s1" 5 (some "Team") (some "team") none
        (some "u@x")).1 [Event.register "s2" 6 (some "v@x") (some "V") none none])
        "s2" 7 (some "Team two") (some "@team") none (some "v@x") =
      (run (createGroup State.empty "s1" 5 (some "Team") (some "team") none
        (some "u@x")).1 [Event.register "s2" 6 (some "v@x") (some "V") none none],
       [⟨Target.socket "s2", Out.groupError ("@" ++ replaceAt "team" ++ " allaqachon band!")⟩]) :=
  (group_creation_conflict State.empty "s1" "s2" 5 7 "Team" "team" "u@x" "Team two" "@team"
    "v@x" none none [Event.register "s2" 6 (some "v@x") (some "V") none none]
    (by decide) (by decide) (by decide) (by decide) (by decide) (by decide) (by decide)
    (by decide)).2.1

/-! ## Handles of users -/

theorem register_rejected_iff (s : State) (sid : String) (now : Nat) (e n : String)
    (username avatar : Option String) (he : e ≠ "") (hn : n ≠ "") :
    (register s sid now (some e) (some n) username avatar =
        (s, [⟨Target.socket sid, Out.registrationError
          ("@" ++ replaceAt (joinStr username) ++ " allaqachon band!")⟩])) ↔
      (truthy username = true ∧ mapHas s.users e = false ∧
        replaceAt (joinStr username) ∈ s.usernames) := by
  constructor
  · intro h
    by_cases hcheck : (truthy username && !mapHas s.users e) = true
    · by_cases hin : replaceAt (joinStr username) ∈ s.usernames
      · simp only [Bool.and_eq_true, Bool.not_eq_true'] at hcheck
        exact ⟨hcheck.1, hcheck.2, hin⟩
      · simp only [register, he, hn, or_self, if_false, hcheck, if_true, hin] at h
        have := congrArg (fun r => r.2.length) h
        simp [registerUpsert] at this
    · simp only [register, he, hn, or_self, if_false, hcheck] at h
      have := congrArg (fun r => r.2.length) h
      simp [registerUpsert] at this
  · rintro ⟨h1, h2, h3⟩
    simp [register, he, hn, h1, h2, h3]

/-- C1 (code evaluated at three failing traces): two identities with the same local part
registering without a handle both get the default handle `@a`; an identity that is already
registered re-registers with the handle `alice` owned by another user and both records
then carry `alice`; an identity `team@x` registering without a handle gets `@team`, the
handle of an existing group. -/
theorem handle_uniqueness_fails :
    (mapValues (run State.empty
        [Event.register "s1" 1 (some "a@x") (some "A") none none,
         Event.register "s2" 2 (some "a@y") (some "B") none none]).users).map
      (fun u => u.username) = ["@a", "@a"] ∧
    (mapValues (run State.empty
        [Event.register "s1" 1 (some "a@x") (some "A") (some "alice") none,
         Event.register "s2" 2 (some "b@x") (some "B") (some "bob") none,
         Event.register "s2" 3 (some "b@x") (some "B") (some "alice") none]).users).map
      (fun u => u.username) = ["alice", "alice"] ∧
    ((mapValues (run State.empty
        [Event.createGroup "s1" 1 (some "Team") (some "team") none (some "a@x"),
         Event.register "s2" 2 (some "team@x") (some "T") none none]).groups).map
      (fun g => g.username),
     (mapValues (run State.empty
        [Event.createGroup "s1" 1 (some "Team") (some "team") none (some "a@x"),
         Event.register "s2" 2 (some "team@x") (some "T") none none]).users).map
      (fun u => u.username)) = (["@team"], ["@team"]) := by
  refine ⟨?_, ?_, ?_⟩ <;> decide

/-- C8 (code evaluated at a failing input): `a@x` owns `alice` and `b@x` owns `bob`; when
`a@x` registers again with the handle `bob`, which it does not own and which is in the
handle set, no `registration-error` is emitted: the three directory broadcasts go out, the
record of `a@x` now carries `bob`, and the handle set is unchanged. -/
theorem registration_conflict_missed :
    (register (run State.empty
        [Event.register "s1" 1 (some "a@x") (some "A") (some "alice") none,
         Event.register "s2" 2 (some "b@x") (some "B") (some "bob") none])
      "s1" 3 (some "a@x") (some "A") (some "bob") none).2.map (fun e => e.target) =
      [Target.all, Target.all, Target.all] ∧
    (mapValues (register (run State.empty
        [Event.register "s1" 1 (some "a@x") (some "A") (some "alice") none,
         Event.register "s2" 2 (some "b@x") (some "B") (some "bob") none])
      "s1" 3 (some "a@x") (some "A") (some "bob") none).1.users).map
      (fun u => (u.email, u.username)) = [("a@x", "bob"), ("b@x", "bob")] ∧
    (register (run State.empty
        [Event.register "s1" 1 (some "a@x") (some "A") (some "alice") none,
         Event.register "s2" 2 (some "b@x") (some "B") (some "bob") none])
      "s1" 3 (some "a@x") (some "A") (some "bob") none).1.usernames = ["alice", "bob"] := by
  refine ⟨?_, ?_, ?_⟩ <;> decide

/-! ## Mark as read and self-delete -/

/-- C13: `mark-as-read(senderId, receiverId)` rewrites only the log at the key of the pair,
which becomes the same list with `read = true` set on the messages whose stored sender and
receiver are `(senderId, receiverId)`: a message that does not match is kept as it is, a
message that matches changes in no other field, the log keeps its length, an absent log
stays absent, and every other log and every other store is unchanged. -/
theorem mark_read_direction (s : State) (senderId receiverId : Option String) :
    (∀ k, mapGet (markAsRead s senderId receiverId).1.messages k =
      if k = chatKeyOf senderId receiverId then
        (mapGet s.messages k).map (fun chat => chat.map (fun m =>
          if m.senderId = senderId ∧ m.receiverId = receiverId then
            { m with read := some true }
          else m))
      else mapGet s.messages k) ∧
    (∀ chat : List Msg, (chat.map (fun m =>
        if m.senderId = senderId ∧ m.receiverId = receiverId then
          { m with read := some true }
        else m)).length = chat.length) ∧
    (∀ m : Msg, ¬ (m.senderId = senderId ∧ m.receiverId = receiverId) →
      (if m.senderId = senderId ∧ m.receiverId = receiverId then
        { m with read := some true } else m) = m) ∧
    (∀ m : Msg, m.senderId = senderId ∧ m.receiverId = receiverId →
      (if m.senderId = senderId ∧ m.receiverId = receiverId then
        { m with read := some true } else m) = { m with read := some true }) ∧
    (markAsRead s senderId receiverId).1.users = s.users ∧
    (markAsRead s senderId receiverId).1.online = s.online ∧
    (markAsRead s senderId receiverId).1.groups = s.groups ∧
    (markAsRead s senderId receiverId).1.usernames = s.usernames := by
  refine ⟨?_, fun chat => List.length_map _ _, fun m h => if_neg h, fun m h => if_pos h,
    rfl, rfl, rfl, rfl⟩
  intro k
  by_cases hk : k = chatKeyOf senderId receiverId
  · subst hk
    simp only [markAsRead, if_true]
    cases h : mapGet s.messages (chatKeyOf senderId receiverId) with
    | none => simp [h]
    | some chat => simp [mapGet_mapSet_self]
  · simp only [markAsRead, hk, if_false]
    cases h : mapGet s.messages (chatKeyOf senderId receiverId) with
    | none => rfl
    | some chat => exact mapGet_mapSet_ne _ _ _ _ hk

/-- Witness for C13: `a@x` and `b@x` each send one message to the other and the messages
from `a@x` to `b@x` are marked read; the log keeps both messages in order and only the
first has `read = true`. -/
theorem mark_read_direction_witness :
    mapGet (markAsRead (run State.empty
        [Event.sendMessage "s1" 7 "m1" (some "a@x") (some "b@x") (some "hi") none none,
         Event.sendMessage "s2" 8 "m2" (some "b@x") (some "a@x") (some "yo") none none])
      (some "a@x") (some "b@x")).1.messages "a@x::b@x" =
      some [{ directMessage 7 "m1" "a@x" "b@x" "hi" none none with read := some true },
            directMessage 8 "m2" "b@x" "a@x" "yo" none none] ∧
    (if (directMessage 8 "m2" "b@x" "a@x" "yo" none none).senderId = some "a@x" ∧
        (directMessage 8 "m2" "b@x" "a@x" "yo" none none).receiverId = some "b@x" then
      { directMessage 8 "m2" "b@x" "a@x" "yo" none none with read := some true }
     else directMessage 8 "m2" "b@x" "a@x" "yo" none none) =
      directMessage 8 "m2" "b@x" "a@x" "yo" none none :=
  ⟨by decide,
   (mark_read_direction State.empty (some "a@x") (some "b@x")).2.2.1
     (directMessage 8 "m2" "b@x" "a@x" "yo" none none) (by decide)⟩

/-- C15: when the requester is the stored sender of the message addressed by
`(chatKey, messageId)` and `deleteFor` is anything but `"everyone"` (absent included),
`delete-message` returns the store unchanged and emits exactly one event, `message-deleted`
to the calling session. -/
theorem self_delete_no_mutation (s : State) (sid messageId chatKey : String)
    (senderId deleteFor : Option String) (m : Msg)
    (hm : ((mapGet s.messages chatKey).getD []).find? (fun x => decide (x.id = messageId))
      = some m)
    (hsender : m.senderId = senderId) (hfor : deleteFor ≠ some "everyone") :
    deleteMessage s sid messageId chatKey senderId deleteFor =
      (s, [⟨Target.socket sid, Out.messageDeleted messageId chatKey⟩]) := by
  cases hi : findIndex messageId ((mapGet s.messages chatKey).getD []) with
  | none =>
    rw [findIndex_none messageId _ hi] at hm
    cases hm
  | some idx =>
    have := findIndex_some messageId _ idx hi
    rw [hm] at this
    simp [deleteMessage, hi, this, hsender, hfor]

/-- Witness for C15: `a@x` deletes its own message `m1` with `deleteFor = "me"`. -/
theorem self_delete_no_mutation_witness :
    deleteMessage
        (sendMessage State.empty "s1" 7 "m1" (some "a@x") (some "b@x") (some "hi") none none).1
        "s1" "m1" "a@x::b@x" (some "a@x") (some "me") =
      ((sendMessage State.empty "s1" 7 "m1" (some "a@x") (some "b@x") (some "hi") none none).1,
        [⟨Target.socket "s1", Out.messageDeleted "m1" "a@x::b@x"⟩]) :=
  self_delete_no_mutation
    (sendMessage State.empty "s1" 7 "m1" (some "a@x") (some "b@x") (some "hi") none none).1
    "s1" "m1" "a@x::b@x" (some "a@x") (some "me")
    (directMessage 7 "m1" "a@x" "b@x" "hi" none none) (by decide) (by decide) (by decide)

theorem sendGroupMessage_valid (s : State) (now : Nat) (freshId gid txt : String)
    (senderId : Option String) (ts : Option Nat) (rt : Option String) (g : Group)
    (hg : mapGet s.groups gid = some g) (ht : txt ≠ "") :
    (sendGroupMessage s now freshId (some gid) senderId (some txt) ts rt).1.messages =
      pushMessage s.messages gid (groupMessage now freshId gid senderId txt ts rt) := by
  simp only [sendGroupMessage, hg, ht, if_false]

/-! ## Chat-key round trip -/

theorem splitColons_no_colon : ∀ (l cur : List Char), ':' ∉ l →
    splitColons l cur = [⟨cur.reverse ++ l⟩]
  | [], cur, _ => by simp [splitColons]
  | [c], cur, _ => by simp [splitColons]
  | c :: d :: rest, cur, h => by
    have hc : c ≠ ':' := fun hc => h (by simp [hc])
    have hrest : ':' ∉ d :: rest := fun hin => h (List.mem_cons_of_mem _ hin)
    simp only [splitColons, hc, false_and, if_false]
    rw [splitColons_no_colon (d :: rest) (c :: cur) hrest]
    simp

theorem splitColons_cons_cons (c d : Char) (rest cur : List Char) :
    splitColons (c :: d :: rest) cur =
      if c = ':' ∧ d = ':' then ⟨cur.reverse⟩ :: splitColons rest []
      else splitColons (d :: rest) (c :: cur) := by
  rw [splitColons]

theorem splitColons_pair : ∀ (x cur y : List Char), ':' ∉ x → ':' ∉ y →
    splitColons (x ++ ':' :: ':' :: y) cur = [⟨cur.reverse ++ x⟩, ⟨y⟩]
  | [], cur, y, _, hy => by
    show splitColons (':' :: ':' :: y) cur = _
    rw [splitColons_cons_cons, if_pos ⟨rfl, rfl⟩, splitColons_no_colon y [] hy]
    simp
  | c :: x, cur, y, hx, hy => by
    have hc : c ≠ ':' := fun hc => hx (by simp [hc])
    have hrest : ':' ∉ x := fun hin => hx (List.mem_cons_of_mem _ hin)
    have ih := splitColons_pair x (c :: cur) y hrest hy
    cases x with
    | nil =>
      show splitColons (c :: ':' :: ':' :: y) cur = _
      rw [splitColons_cons_cons, if_neg (fun h => hc h.1)]
      simpa using ih
    | cons d x1 =>
      show splitColons (c :: d :: (x1 ++ ':' :: ':' :: y)) cur = _
      rw [splitColons_cons_cons, if_neg (fun h => hc h.1)]
      simpa using ih

theorem splitKey_join (x y : String) (hx : ':' ∉ x.data) (hy : ':' ∉ y.data) :
    splitKey (x ++ "::" ++ y) = [x, y] := by
  have h := splitColons_pair x.data [] y.data hx hy
  have hdata : (x ++ "::" ++ y).data = x.data ++ ':' :: ':' :: y.data := by
    simp [String.data_append]
  simp only [splitKey, hdata, h, List.reverse_nil, List.nil_append]

theorem splitKey_chatKeyOf (a b : String) (ha : ':' ∉ a.data) (hb : ':' ∉ b.data) :
    splitKey (chatKeyOf (some a) (some b)) = if jsLt b a then [b, a] else [a, b] := by
  unfold chatKeyOf sortPair
  by_cases h : jsLt b a = true
  · simp only [h, if_true, joinStr]
    exact splitKey_join b a hb ha
  · simp only [h, joinStr]
    exact splitKey_join a b ha hb

/-! ## Send validation, edit fan-out, disconnect, group ids -/

theorem sendMessage_invalid (s : State) (sid : String) (now : Nat) (freshId : String)
    (senderId receiverId text : Option String) (ts : Option Nat) (rt : Option String)
    (h : truthy senderId = false ∨ truthy receiverId = false ∨ truthy text = false) :
    sendMessage s sid now freshId senderId receiverId text ts rt = (s, []) := by
  cases senderId with
  | none => rfl
  | some a =>
    cases receiverId with
    | none => rfl
    | some b =>
      cases text with
      | none => rfl
      | some t =>
        have h1 : a = "" ∨ b = "" ∨ t = "" := by simpa [truthy] using h
        simp [sendMessage, h1]

theorem sendGroupMessage_invalid (s : State) (now : Nat) (freshId : String)
    (groupId senderId text : Option String) (ts : Option Nat) (rt : Option String)
    (h : (∀ gid, groupId = some gid → mapGet s.groups gid = none) ∨ truthy text = false) :
    sendGroupMessage s now freshId groupId senderId text ts rt = (s, []) := by
  cases groupId with
  | none => rfl
  | some gid =>
    cases text with
    | none => rfl
    | some t =>
      rcases h with h | h
      · simp [sendGroupMessage, h gid rfl]
      · have ht : t = "" := by simpa [truthy] using h
        simp only [sendGroupMessage, ht]
        split <;> rfl

/-- C11 (code evaluated at a failing input): in a store holding the group `g_5` created by
`a@x`, a `send-group-message` without `senderId`, and one with the empty `senderId`, are
not ignored: the sender value is appended to the members, `group-updated` is broadcast and
the message is stored in the log of the group. -/
theorem send_validation_missed :
    sendGroupMessage
        (createGroup State.empty "s1" 5 (some "Team") (some "team") none (some "a@x")).1
        6 "m1" (some "g_5") none (some "hi") none none =
      ({ users := [], online := [],
         messages := [("g_5", [groupMessage 6 "m1" "g_5" none "hi" none none])],
         groups := [("g_5", { groupRecord 5 "Team" "team" none "a@x" with
                              members := [some "a@x", none] })],
         usernames := ["team"] },
       [⟨Target.all, Out.groupUpdated { groupRecord 5 "Team" "team" none "a@x" with
                                        members := [some "a@x", none] }⟩]) ∧
    sendGroupMessage
        (createGroup State.empty "s1" 5 (some "Team") (some "team") none (some "a@x")).1
        6 "m1" (some "g_5") (some "") (some "hi") none none =
      ({ users := [], online := [],
         messages := [("g_5", [groupMessage 6 "m1" "g_5" (some "") "hi" none none])],
         groups := [("g_5", { groupRecord 5 "Team" "team" none "a@x" with
                              members := [some "a@x", some ""] })],
         usernames := ["team"] },
       [⟨Target.all, Out.groupUpdated { groupRecord 5 "Team" "team" none "a@x" with
                                        members := [some "a@x", some ""] }⟩]) := by
  constructor <;> decide

theorem editMessage_fanout_direct (s : State) (messageId newText a b : String)
    (m : Msg) (ha : ':' ∉ a.data) (hb : ':' ∉ b.data)
    (hm : ((mapGet s.messages (chatKeyOf (some a) (some b))).getD []).find?
      (fun x => decide (x.id = messageId)) = some m) :
    (editMessage s messageId (chatKeyOf (some a) (some b)) newText m.senderId).2 =
      if jsLt b a then
        toOnline s (some b)
            (Out.messageEdited messageId (trim newText) (chatKeyOf (some a) (some b))) ++
          toOnline s (some a)
            (Out.messageEdited messageId (trim newText) (chatKeyOf (some a) (some b)))
      else
        toOnline s (some a)
            (Out.messageEdited messageId (trim newText) (chatKeyOf (some a) (some b))) ++
          toOnline s (some b)
            (Out.messageEdited messageId (trim newText) (chatKeyOf (some a) (some b))) := by
  simp only [editMessage, hm, if_true, splitKey_chatKeyOf a b ha hb]
  by_cases hab : jsLt b a = true <;> simp [hab, notifyAll]

/-- C12 (code evaluated at a failing input): `a@x` is registered and online on `s1`,
created the group `g_5` and sent the message `m1` to it.  Its `edit-message` on the chat
key `g_5` succeeds (text and `edited` flag are rewritten) but emits nothing, because the
key is split on `::` and `g_5` is looked up as a user; on the same store `add-reaction`
does notify the online member on `s1`. -/
theorem edit_fanout_missed :
    editMessage (run State.empty
        [Event.register "s1" 1 (some "a@x") (some "A") none none,
         Event.createGroup "s1" 5 (some "Team") (some "team") none (some "a@x"),
         Event.sendGroupMessage 6 "m1" (some "g_5") (some "a@x") (some "hi") none none])
      "m1" "g_5" "bye" (some "a@x") =
      ({ run State.empty
          [Event.register "s1" 1 (some "a@x") (some "A") none none,
           Event.createGroup "s1" 5 (some "Team") (some "team") none (some "a@x"),
           Event.sendGroupMessage 6 "m1" (some "g_5") (some "a@x") (some "hi") none none] with
         messages := [("g_5", [{ groupMessage 6 "m1" "g_5" (some "a@x") "hi" none none with
                                 text := "bye", edited := some true }])] },
       []) ∧
    (addReaction (run State.empty
        [Event.register "s1" 1 (some "a@x") (some "A") none none,
         Event.createGroup "s1" 5 (some "Team") (some "team") none (some "a@x"),
         Event.sendGroupMessage 6 "m1" (some "g_5") (some "a@x") (some "hi") none none])
      "m1" "g_5" "like" "a@x").2 =
      [⟨Target.socket "s1", Out.reactionUpdated "m1" [("like", ["a@x"])] "g_5"⟩] := by
  constructor <;> decide

/-- C16 (code evaluated at a failing trace): session `s1` registers `a@x` and then `b@x`
and disconnects.  Only `b@x`, the identity the registry holds for `s1`, is flagged offline;
`a@x` keeps `online = true` with `socketId = s1`, and a later `send-message` to `a@x`
arriving on `s2` emits `receive-message` to the session id `s1`. -/
theorem disconnect_delivery_missed :
    (mapGet (run State.empty
        [Event.register "s1" 1 (some "a@x") (some "A") none none,
         Event.register "s1" 2 (some "b@x") (some "B") none none,
         Event.disconnect "s1" 3]).users "a@x").map (fun u => (u.socketId, u.online)) =
      some ("s1", true) ∧
    (step (run State.empty
        [Event.register "s1" 1 (some "a@x") (some "A") none none,
         Event.register "s1" 2 (some "b@x") (some "B") none none,
         Event.disconnect "s1" 3])
      (Event.sendMessage "s2" 4 "m1" (some "c@x") (some "a@x") (some "hi") none none)).2 =
      [⟨Target.socket "s1", Out.receiveMessage (directMessage 4 "m1" "c@x" "a@x" "hi" none none)⟩,
       ⟨Target.socket "s2", Out.messageSent (directMessage 4 "m1" "c@x" "a@x" "hi" none none)⟩] := by
  constructor <;> decide

theorem mapSet_fresh {V : Type} (m : List (String × V)) (k : String) (v : V)
    (h : mapGet m k = none) : mapSet m k v = m ++ [(k, v)] := by
  induction m with
  | nil => rfl
  | cons q rest ih =>
    obtain ⟨k0, v0⟩ := q
    by_cases hk : k0 = k
    · simp [mapGet, hk] at h
    · simp only [mapGet, hk, if_false] at h
      simp [mapSet, hk, ih h]

theorem createGroup_fresh (s : State) (sid : String) (now : Nat) (n h c : String)
    (ty : Option String) (hn : n ≠ "") (hh : h ≠ "") (hc : c ≠ "")
    (hfree : replaceAt h ∉ s.usernames)
    (hid : mapGet s.groups ("g_" ++ toString now) = none) :
    (createGroup s sid now (some n) (some h) ty (some c)).1.groups =
      s.groups ++ [("g_" ++ toString now, groupRecord now n (replaceAt h) ty c)] := by
  rw [createGroup_ok s sid now n h c ty hn hh hc hfree]
  exact mapSet_fresh _ _ _ hid

/-- C19 (code evaluated at a failing input): the group `team` was created at clock value
5; a `create-group` with the free handle `other` at the same clock value succeeds
(`new-group` and `group-created` are emitted) but builds the id `g_5` again, so the number
of groups stays 1 and the record of `team` is replaced by the new group. -/
theorem group_creation_overwrites :
    createGroup
        (createGroup State.empty "s1" 5 (some "Team") (some "team") none (some "a@x")).1
        "s2" 5 (some "Other") (some "other") none (some "b@x") =
      ({ users := [], online := [], messages := [],
         groups := [("g_5", groupRecord 5 "Other" "other" none "b@x")],
         usernames := ["team", "other"] },
       [⟨Target.all, Out.newGroup (groupRecord 5 "Other" "other" none "b@x")⟩,
        ⟨Target.socket "s2", Out.groupCreated (groupRecord 5 "Other" "other" none "b@x")⟩]) ∧
    (createGroup State.empty "s1" 5 (some "Team") (some "team") none (some "a@x")).1.groups =
      [("g_5", groupRecord 5 "Team" "team" none "a@x")] := by
  constructor <;> decide

/-! ## Trimming and handle cleaning -/

theorem trim_isTrimOf (s : String) : IsTrimOf (trim s) s := by
  have h1 := List.takeWhile_append_dropWhile isJsSpace s.data
  have h2 := List.takeWhile_append_dropWhile isJsSpace (s.data.dropWhile isJsSpace).reverse
  have h3 : s.data.dropWhile isJsSpace =
      ((s.data.dropWhile isJsSpace).reverse.dropWhile isJsSpace).reverse ++
        ((s.data.dropWhile isJsSpace).reverse.takeWhile isJsSpace).reverse := by
    rw [← List.reverse_append, h2, List.reverse_reverse]
  refine ⟨s.data.takeWhile isJsSpace,
    ((s.data.dropWhile isJsSpace).reverse.takeWhile isJsSpace).reverse, ?_, ?_, ?_, ?_, ?_⟩
  · show s.data = s.data.takeWhile isJsSpace ++
        ((s.data.dropWhile isJsSpace).reverse.dropWhile isJsSpace).reverse ++
        ((s.data.dropWhile isJsSpace).reverse.takeWhile isJsSpace).reverse
    rw [List.append_assoc, ← h3, h1]
  · intro c hc
    exact List.mem_takeWhile_imp hc
  · intro c hc
    exact List.mem_takeWhile_imp (List.mem_reverse.mp hc)
  · intro c hc
    show isJsSpace c = false
    have hc1 : (((s.data.dropWhile isJsSpace).reverse.dropWhile isJsSpace).reverse).head?
        = some c := hc
    have hhead : (s.data.dropWhile isJsSpace).head? = some c := by
      rw [h3, List.head?_append, hc1]
      rfl
    have := List.head?_dropWhile_not isJsSpace s.data
    rw [hhead] at this
    simpa using this
  · intro c hc
    have hc1 : (((s.data.dropWhile isJsSpace).reverse.dropWhile isJsSpace).reverse).getLast?
        = some c := hc
    rw [List.getLast?_reverse] at hc1
    have := List.head?_dropWhile_not isJsSpace (s.data.dropWhile isJsSpace).reverse
    rw [hc1] at this
    simpa using this

theorem replaceAt_isFirstAtRemoved (s : String) : IsFirstAtRemoved (replaceAt s) s := by
  by_cases h : '@' ∈ s.data
  · obtain ⟨pre, post, hpre, hs, herase⟩ := List.exists_erase_eq h
    exact Or.inr ⟨pre, post, hs, hpre, herase⟩
  · exact Or.inl ⟨h, replaceAt_of_not_mem s h⟩

/-! ## Lower-casing and search -/

theorem search_eq (s : State) (sid query : String) :
    search s sid query =
      if searchTerm query = "" then (s, [])
      else (s, [⟨Target.socket sid, Out.searchResults
        (foundUsers s (searchTerm query) ++ foundGroups s (searchTerm query))⟩]) := rfl

theorem toNat_ofNat_cases (t : Nat) : (Char.ofNat t).toNat = t ∨ (Char.ofNat t).toNat = 0 := by
  unfold Char.ofNat
  split
  · exact Or.inl rfl
  · exact Or.inr rfl

theorem ofNat_ne_at (t : Nat) (h : t ≠ 64) : Char.ofNat t ≠ '@' := by
  intro heq
  have h1 : (Char.ofNat t).toNat = 64 := by rw [heq]; rfl
  rcases toNat_ofNat_cases t with h2 | h2 <;> omega

theorem lowerTarget_ge (table : List (Nat × Nat × Nat × Nat)) (b : Nat)
    (htable : ∀ r ∈ table, b ≤ r.2.2.2) (n t : Nat) (h : lowerTarget table n = some t) :
    b ≤ t := by
  induction table with
  | nil => simp [lowerTarget] at h
  | cons r rest ih =>
    obtain ⟨lo, hi, step, target⟩ := r
    have hr := htable (lo, hi, step, target) (List.mem_cons_self _ _)
    simp only [lowerTarget] at h
    split at h
    · simp only [Option.some.injEq] at h
      simp only at hr
      omega
    · exact ih (fun r hr => htable r (List.mem_cons_of_mem _ hr)) h

set_option maxRecDepth 100000 in
theorem lowerRanges_targets : ∀ r ∈ lowerRanges, 97 ≤ r.2.2.2 := by decide

theorem lowerChar_no_at (c : Char) (h : c ≠ '@') : '@' ∉ lowerChar c := by
  unfold lowerChar
  split
  · simp only [List.mem_cons, List.mem_singleton, List.not_mem_nil, or_false, not_or]
    exact ⟨by decide, (ofNat_ne_at 775 (by decide)).symm⟩
  · split
    · rename_i t ht
      have := lowerTarget_ge lowerRanges 97 lowerRanges_targets c.toNat t ht
      simp only [List.mem_singleton]
      exact (ofNat_ne_at t (by omega)).symm
    · simp only [List.mem_singleton]
      exact fun heq => h heq.symm

theorem lowerFrom_no_at : ∀ (cs : List Char) (before : Bool), '@' ∉ cs →
    '@' ∉ lowerFrom before cs
  | [], _, _ => by simp [lowerFrom]
  | c :: cs, before, h => by
    have hc : c ≠ '@' := fun heq => h (by simp [heq])
    have hcs : '@' ∉ cs := fun hin => h (List.mem_cons_of_mem _ hin)
    simp only [lowerFrom, List.mem_append, not_or]
    refine ⟨?_, lowerFrom_no_at cs _ hcs⟩
    split
    · simp only [List.mem_singleton]
      split
      · exact (ofNat_ne_at 962 (by decide)).symm
      · exact (ofNat_ne_at 963 (by decide)).symm
    · exact lowerChar_no_at c hc

theorem toLowerCase_no_at (q : String) (h : '@' ∉ q.data) : '@' ∉ (toLowerCase q).data :=
  lowerFrom_no_at q.data false h

set_option maxRecDepth 100000 in
theorem lowerFrom_at (cs : List Char) : lowerFrom false ('@' :: cs) = '@' :: lowerFrom false cs := by
  have h1 : ('@' : Char).toNat ≠ 931 := by decide
  have h2 : lowerChar '@' = ['@'] := by decide
  have h3 : inRanges caseIgnorableRanges 64 = false := by decide
  have h4 : inRanges casedRanges 64 = false := by decide
  simp [lowerFrom, h1, h2, h3, h4]

theorem toLowerCase_at_append (q : String) :
    toLowerCase ("@" ++ q) = "@" ++ toLowerCase q := by
  cases q with
  | mk l =>
    show (⟨lowerFrom false ('@' :: l)⟩ : String) = _
    rw [lowerFrom_at]
    rfl

theorem searchTerm_at (q : String) (h : '@' ∉ q.data) :
    searchTerm ("@" ++ q) = searchTerm q := by
  unfold searchTerm
  rw [toLowerCase_at_append, replaceAt_cons_at,
    replaceAt_of_not_mem _ (toLowerCase_no_at q h)]

theorem followedByCased_congr : ∀ (cs ds : List Char),
    cs.map caseInfo = ds.map caseInfo → followedByCased cs = followedByCased ds
  | [], [], _ => rfl
  | [], _ :: _, h => by simp at h
  | _ :: _, [], h => by simp at h
  | c :: cs, d :: ds, h => by
    simp only [List.map_cons, List.cons.injEq] at h
    obtain ⟨hcd, hrest⟩ := h
    have ih := followedByCased_congr cs ds hrest
    simp only [caseInfo, Prod.mk.injEq] at hcd
    obtain ⟨_, _, hi, hc⟩ := hcd
    unfold followedByCased at ih ⊢
    by_cases hd : inRanges caseIgnorableRanges d.toNat = true
    · simp only [List.dropWhile_cons, hi, hd, if_true]
      exact ih
    · simp [List.dropWhile_cons, hi, hd, hc]

theorem lowerFrom_congr : ∀ (cs ds : List Char) (before : Bool),
    cs.map caseInfo = ds.map caseInfo → lowerFrom before cs = lowerFrom before ds
  | [], [], _, _ => rfl
  | [], _ :: _, _, h => by simp at h
  | _ :: _, [], _, h => by simp at h
  | c :: cs, d :: ds, before, h => by
    simp only [List.map_cons, List.cons.injEq] at h
    obtain ⟨hcd, hrest⟩ := h
    simp only [caseInfo, Prod.mk.injEq, decide_eq_decide] at hcd
    obtain ⟨hs, hl, hi, hc⟩ := hcd
    simp only [lowerFrom, hs, hl, hi, hc, followedByCased_congr cs ds hrest,
      lowerFrom_congr cs ds _ hrest]

set_option maxRecDepth 100000 in
theorem caseInfo_upper (n : Nat) (h1 : 65 ≤ n) (h2 : n ≤ 90) :
    caseInfo (Char.ofNat n) = caseInfo (Char.ofNat (n + 32)) := by
  interval_cases n <;> decide

theorem caseInfo_toLower (c : Char) : caseInfo c.toLower = caseInfo c := by
  by_cases hc : c.toNat ≥ 65 ∧ c.toNat ≤ 90
  · have hlow : c.toLower = Char.ofNat (c.toNat + 32) := by simp [Char.toLower, hc]
    rw [hlow]
    have := caseInfo_upper c.toNat hc.1 hc.2
    rw [Char.ofNat_toNat] at this
    exact this.symm
  · have hlow : c.toLower = c := by simp [Char.toLower, hc]
    rw [hlow]

theorem toLowerCase_of_sameUpToAsciiCase (a b : String) (h : SameUpToAsciiCase a b) :
    toLowerCase a = toLowerCase b := by
  have hinfo : a.data.map caseInfo = b.data.map caseInfo := by
    have h1 := congrArg (List.map caseInfo) h
    simp only [List.map_map] at h1
    have h2 : (caseInfo ∘ Char.toLower) = caseInfo := funext caseInfo_toLower
    rw [h2] at h1
    exact h1
  unfold toLowerCase
  rw [lowerFrom_congr a.data b.data false hinfo]

/-- C14 as stated fails: in a store whose only user is `max@x` (name `Max`, handle `@max`),
the query `a@x` is matched through the term `ax`, not `a@x`, because the first `@` is
removed wherever it stands, and finds the user; the same query with `@` prepended is
matched through the term `a@x` and finds nothing. -/
theorem search_normalization_counterexample :
    searchTerm "a@x" = "ax" ∧ searchTerm "@a@x" = "a@x" ∧
    (search (run State.empty [Event.register "s1" 1 (some "max@x") (some "Max") none none])
        "s2" "a@x").2 =
      [⟨Target.socket "s2", Out.searchResults
        [{ id := "max@x", name := "Max", username := "@max", type := "user",
           avatar := getColor "max@x", online := some true }]⟩] ∧
    (search (run State.empty [Event.register "s1" 1 (some "max@x") (some "Max") none none])
        "s2" "@a@x").2 = [⟨Target.socket "s2", Out.searchResults []⟩] := by
  refine ⟨?_, ?_, ?_, ?_⟩ <;> decide

/-- C14 (amended): `search` never changes the store; the term matched is the lower-cased
query with its first `@` removed (wherever it stands) and then its leading and trailing
white space removed; nothing is emitted for an empty term and otherwise one
`search-results` goes to the caller, user matches before group matches.  Hence two queries
with the same lower-cased form, in particular two queries that differ only in the case of
the letters `A`-`Z`, emit the same results, and for a query `q` without `@` the query `@`
followed by `q`, or by a query with the lower-cased form of `q`, emits what `q` emits. -/
theorem search_normalization (s : State) (sid q q1 : String) :
    (search s sid q).1 = s ∧
    (∃ r : String, IsFirstAtRemoved r (toLowerCase q) ∧ IsTrimOf (searchTerm q) r) ∧
    (search s sid q).2 =
      (if searchTerm q = "" then []
       else [⟨Target.socket sid, Out.searchResults
         (foundUsers s (searchTerm q) ++ foundGroups s (searchTerm q))⟩]) ∧
    (∀ hit ∈ foundUsers s (searchTerm q), ∃ u ∈ mapValues s.users,
      hit.id = u.email ∧ hit.online = some u.online) ∧
    (∀ hit ∈ foundGroups s (searchTerm q), ∃ g ∈ mapValues s.groups,
      hit.id = g.id ∧ hit.online = none) ∧
    (toLowerCase q1 = toLowerCase q → search s sid q1 = search s sid q) ∧
    (SameUpToAsciiCase q1 q → search s sid q1 = search s sid q) ∧
    ('@' ∉ q.data → search s sid ("@" ++ q) = search s sid q) ∧
    ('@' ∉ q.data → toLowerCase q1 = toLowerCase q →
      search s sid ("@" ++ q1) = search s sid q) := by
  have hlow : toLowerCase q1 = toLowerCase q → search s sid q1 = search s sid q := by
    intro h
    rw [search_eq, search_eq]
    simp only [searchTerm, h]
  refine ⟨?_, ⟨replaceAt (toLowerCase q), replaceAt_isFirstAtRemoved _, trim_isTrimOf _⟩,
    ?_, ?_, ?_, hlow, fun h => hlow (toLowerCase_of_sameUpToAsciiCase q1 q h), ?_, ?_⟩
  · rw [search_eq]; split <;> rfl
  · rw [search_eq]; split <;> rfl
  · intro hit hhit
    simp only [foundUsers, List.mem_map, List.mem_filter] at hhit
    obtain ⟨u, ⟨hu, _⟩, rfl⟩ := hhit
    exact ⟨u, hu, rfl, rfl⟩
  · intro hit hhit
    simp only [foundGroups, List.mem_map, List.mem_filter] at hhit
    obtain ⟨g, ⟨hg, _⟩, rfl⟩ := hhit
    exact ⟨g, hg, rfl, rfl⟩
  · intro h
    rw [search_eq, search_eq, searchTerm_at q h]
  · intro h hlow1
    have hterm : searchTerm ("@" ++ q1) = searchTerm q := by
      unfold searchTerm
      rw [toLowerCase_at_append, replaceAt_cons_at, hlow1,
        replaceAt_of_not_mem _ (toLowerCase_no_at q h)]
    rw [search_eq, search_eq, hterm]

set_option maxRecDepth 100000 in
/-- Witness for C14: in a store with the user `École` the queries `@ÉCOLE` and `école` emit
the same results, which hold that user. -/
theorem search_normalization_witness :
    search (run State.empty [Event.register "s1" 1 (some "e@x") (some "École") none none])
        "s2" ("@" ++ "ÉCOLE") =
      search (run State.empty [Event.register "s1" 1 (some "e@x") (some "École") none none])
        "s2" "école" ∧
    (search (run State.empty [Event.register "s1" 1 (some "e@x") (some "École") none none])
        "s2" "école").2 =
      [⟨Target.socket "s2", Out.searchResults
        [{ id := "e@x", name := "École", username := "@e", type := "user",
           avatar := getColor "e@x", online := some true }]⟩] :=
  ⟨(search_normalization
      (run State.empty [Event.register "s1" 1 (some "e@x") (some "École") none none])
      "s2" "école" "ÉCOLE").2.2.2.2.2.2.2.2 (by decide) (by decide),
   by decide⟩

/-! ## Reaction objects -/

theorem mapGet_objInsertIndex_self {V : Type} (n : Nat) (k : String) (v : V) :
    ∀ o : List (String × V), mapGet o k = none → mapGet (objInsertIndex n k v o) k = some v
  | [], _ => by simp [objInsertIndex, mapGet]
  | (k0, v0) :: rest, h => by
    have hk : k0 ≠ k := by
      intro hk
      simp [mapGet, hk] at h
    have hrest : mapGet rest k = none := by simpa [mapGet, hk] using h
    simp only [objInsertIndex]
    split
    · split
      · simp [mapGet]
      · simp [mapGet, hk, mapGet_objInsertIndex_self n k v rest hrest]
    · simp [mapGet]

theorem mapGet_objInsertIndex_ne {V : Type} (n : Nat) (k k1 : String) (v : V)
    (hne : k1 ≠ k) :
    ∀ o : List (String × V), mapGet (objInsertIndex n k v o) k1 = mapGet o k1
  | [] => by simp [objInsertIndex, mapGet, Ne.symm hne]
  | (k0, v0) :: rest => by
    simp only [objInsertIndex]
    split
    · split
      · simp [mapGet, Ne.symm hne]
      · by_cases hk : k0 = k1
        · simp [mapGet, hk]
        · simp [mapGet, hk, mapGet_objInsertIndex_ne n k k1 v hne rest]
    · simp [mapGet, Ne.symm hne]

theorem mapGet_objSet_self {V : Type} (o : List (String × V)) (k : String) (v : V) :
    mapGet (objSet o k v) k = some v := by
  unfold objSet
  split
  · split
    · exact mapGet_mapSet_self _ _ _
    · rename_i hhas
      apply mapGet_objInsertIndex_self
      cases h : mapGet o k with
      | none => rfl
      | some w => simp [mapHas, h] at hhas
  · exact mapGet_mapSet_self _ _ _

theorem mapGet_objSet_ne {V : Type} (o : List (String × V)) (k k1 : String) (v : V)
    (h : k1 ≠ k) : mapGet (objSet o k v) k1 = mapGet o k1 := by
  unfold objSet
  split
  · split
    · exact mapGet_mapSet_ne _ _ _ _ h
    · exact mapGet_objInsertIndex_ne _ _ _ _ h _
  · exact mapGet_mapSet_ne _ _ _ _ h

theorem toggleReaction_throw (r : Option (List (String × List String)))
    (emoji userId : String) (hown : mapGet (r.getD []) emoji = none)
    (hproto : emoji ∈ objectPrototypeNames) :
    toggleReaction r emoji userId = none := by
  simp [toggleReaction, mapHas, hown, hproto]

theorem toggleReaction_some (r : Option (List (String × List String)))
    (emoji userId : String) (hproto : emoji ∉ objectPrototypeNames) :
    ∃ r1, toggleReaction r emoji userId = some r1 := by
  simp only [toggleReaction, hproto, decide_False, Bool.and_false, Bool.false_eq_true,
    if_false]
  split_ifs <;> exact ⟨_, rfl⟩

theorem reactedUsers_ensure (r : Option (List (String × List String))) (emoji : String) :
    (mapGet (if mapHas (r.getD []) emoji then r.getD [] else objSet (r.getD []) emoji [])
      emoji).getD [] = reactedUsers r emoji := by
  unfold reactedUsers
  cases h : mapGet (r.getD []) emoji with
  | none => simp [mapHas, h, mapGet_objSet_self]
  | some l => simp [mapHas, h]

theorem reactedUsers_after_other (r : Option (List (String × List String)))
    (emoji userId e : String) (he : e ≠ emoji) :
    reactedUsers (some (reactionsAfter r emoji userId)) e = reactedUsers r e := by
  unfold reactedUsers reactionsAfter toggleReaction
  simp only [Option.getD_some]
  split_ifs <;>
    simp only [Option.getD_some, Option.getD_none, mapGet_mapDelete_ne _ _ _ he,
      mapGet_objSet_ne _ _ _ _ he]

theorem reactedUsers_after_throw (r : Option (List (String × List String)))
    (emoji userId e : String) (hown : mapGet (r.getD []) emoji = none)
    (hproto : emoji ∈ objectPrototypeNames) :
    reactedUsers (some (reactionsAfter r emoji userId)) e = reactedUsers r e := by
  simp [reactedUsers, reactionsAfter, toggleReaction_throw r emoji userId hown hproto]

theorem reactedUsers_after_add (r : Option (List (String × List String)))
    (emoji userId : String) (hproto : emoji ∉ objectPrototypeNames)
    (h : userId ∉ reactedUsers r emoji) :
    reactedUsers (some (reactionsAfter r emoji userId)) emoji =
      reactedUsers r emoji ++ [userId] := by
  simp only [reactionsAfter, toggleReaction, hproto, decide_False, Bool.and_false,
    Bool.false_eq_true, if_false, reactedUsers_ensure, h]
  simp [reactedUsers, mapGet_objSet_self]

theorem reactedUsers_after_remove (r : Option (List (String × List String)))
    (emoji userId : String) (hproto : emoji ∉ objectPrototypeNames)
    (h : userId ∈ reactedUsers r emoji) :
    reactedUsers (some (reactionsAfter r emoji userId)) emoji =
      (reactedUsers r emoji).erase userId := by
  simp only [reactionsAfter, toggleReaction, hproto, decide_False, Bool.and_false,
    Bool.false_eq_true, if_false, reactedUsers_ensure, h, if_true]
  split
  · rename_i hlen
    rw [List.length_eq_zero.mp hlen]
    simp [reactedUsers, mapGet_mapDelete_self]
  · simp [reactedUsers, mapGet_objSet_self]

theorem mapGet_after_other (r : Option (List (String × List String)))
    (emoji userId e : String) (he : e ≠ emoji) :
    mapGet (reactionsAfter r emoji userId) e = mapGet (r.getD []) e := by
  simp only [reactionsAfter, toggleReaction]
  split_ifs <;>
    simp only [Option.getD_some, Option.getD_none, mapGet_mapDelete_ne _ _ _ he,
      mapGet_objSet_ne _ _ _ _ he]

theorem reactedUsers_after_twice (r : Option (List (String × List String)))
    (emoji userId : String) (hcount : (reactedUsers r emoji).count userId ≤ 1)
    (hown : emoji ∈ objectPrototypeNames → mapGet (r.getD []) emoji = none) (e : String) :
    (reactedUsers (some (reactionsAfter (some (reactionsAfter r emoji userId)) emoji userId))
      e).Perm (reactedUsers r e) ∧
    (userId ∉ reactedUsers r emoji →
      reactedUsers (some (reactionsAfter (some (reactionsAfter r emoji userId)) emoji userId))
        e = reactedUsers r e) := by
  by_cases he : e = emoji
  · subst he
    by_cases hproto : e ∈ objectPrototypeNames
    · have h1 : reactionsAfter r e userId = r.getD [] := by
        simp [reactionsAfter, toggleReaction_throw r e userId (hown hproto) hproto]
      have h2 : reactionsAfter (some (r.getD [])) e userId = r.getD [] := by
        simp [reactionsAfter,
          toggleReaction_throw (some (r.getD [])) e userId (hown hproto) hproto]
      rw [h1, h2]
      have h3 : reactedUsers (some (r.getD [])) e = reactedUsers r e := rfl
      rw [h3]
      exact ⟨List.Perm.refl _, fun _ => rfl⟩
    · by_cases hmem : userId ∈ reactedUsers r e
      · have h1 := reactedUsers_after_remove r e userId hproto hmem
        have hnot : userId ∉ reactedUsers (some (reactionsAfter r e userId)) e := by
          rw [h1]
          intro hin
          have := List.count_pos_iff.mpr hin
          rw [List.count_erase_self] at this
          omega
        rw [reactedUsers_after_add _ e userId hproto hnot, h1]
        refine ⟨?_, fun h => absurd hmem h⟩
        exact (List.perm_append_comm.trans (List.perm_cons_erase hmem).symm)
      · have h1 := reactedUsers_after_add r e userId hproto hmem
        have hin : userId ∈ reactedUsers (some (reactionsAfter r e userId)) e := by
          rw [h1]; simp
        rw [reactedUsers_after_remove _ e userId hproto hin, h1,
          List.erase_append_right _ hmem]
        simp
  · rw [reactedUsers_after_other _ emoji userId e he,
      reactedUsers_after_other _ emoji userId e he]
    exact ⟨List.Perm.refl _, fun _ => rfl⟩

theorem reactionsOk_after (m : Msg) (hm : m.reactionsOk) (emoji userId : String) :
    Msg.reactionsOk { m with reactions := some (reactionsAfter m.reactions emoji userId) } := by
  intro e
  show (reactedUsers (some (reactionsAfter m.reactions emoji userId)) e).Nodup ∧
    (e ∈ objectPrototypeNames → mapGet (reactionsAfter m.reactions emoji userId) e = none)
  by_cases hproto : emoji ∈ objectPrototypeNames
  · have hown := (hm emoji).2 hproto
    have h1 : reactionsAfter m.reactions emoji userId = m.reactions.getD [] := by
      simp [reactionsAfter, toggleReaction_throw m.reactions emoji userId hown hproto]
    rw [h1]
    exact ⟨(hm e).1, (hm e).2⟩
  · by_cases he : e = emoji
    · subst he
      refine ⟨?_, fun h => absurd h hproto⟩
      by_cases hin : userId ∈ reactedUsers m.reactions e
      · rw [reactedUsers_after_remove _ _ _ hproto hin]
        exact (hm e).1.erase _
      · rw [reactedUsers_after_add _ _ _ hproto hin]
        exact List.Nodup.append (hm e).1 (List.nodup_singleton _) (by simpa using hin)
    · rw [reactedUsers_after_other _ _ _ _ he, mapGet_after_other _ _ _ _ he]
      exact hm e

theorem addReaction_found (s : State) (messageId chatKey emoji userId : String)
    (pre post : List Msg) (msg : Msg)
    (hlog : mapGet s.messages chatKey = some (pre ++ msg :: post))
    (hpre : ∀ x ∈ pre, x.id ≠ messageId) (hid : msg.id = messageId) :
    (addReaction s messageId chatKey emoji userId).1 =
      { s with
        messages := mapSet s.messages chatKey (pre ++
          { msg with reactions := some (reactionsAfter msg.reactions emoji userId) } ::
            post) } := by
  simp only [addReaction, hlog, Option.getD_some,
    find?_append_cons messageId pre post msg hpre hid,
    updateFirst_append_cons messageId _ pre post msg hpre hid, reactionsAfter]
  cases toggleReaction msg.reactions emoji userId <;> rfl

/-! ## Reaction objects of reachable stores -/

theorem step_reactionsOk (s : State) (hs : s.reactionsOk) (e : Event) :
    (step s e).1.reactionsOk := by
  cases e with
  | register sid now email name username avatar =>
    simp only [step, register, registerUpsert]
    split
    · split_ifs <;> exact hs
    · exact hs
  | sendMessage sid now freshId senderId receiverId text timestamp replyTo =>
    simp only [step, sendMessage]
    split
    · split_ifs
      · exact hs
      · exact reactionsOk_pushMessage s hs _ _
          (fun e => by simp [reactedUsers, directMessage, mapGet]) _ _ _ _
    · exact hs
  | getMessages sid user1 user2 => exact hs
  | markAsRead senderId receiverId =>
    simp only [step, markAsRead]
    split
    · rename_i chat hchat
      refine reactionsOk_mapSet s hs _ _ ?_ _ _ _ _
      intro m hm
      obtain ⟨y, hy, rfl⟩ := List.mem_map.mp hm
      have hyok := hs _ (mapGet_mem _ _ _ hchat) y hy
      split_ifs
      · exact hyok
      · exact hyok
    · exact hs
  | editMessage messageId chatKey newText senderId =>
    simp only [step, editMessage]
    split
    · split_ifs
      · refine reactionsOk_mapSet s hs _ _ ?_ _ _ _ _
        intro m hm
        rcases mem_updateFirst _ _ _ _ hm with h | ⟨y, hy, rfl⟩
        · exact reactionsOk_getD s hs chatKey m h
        · exact reactionsOk_getD s hs chatKey y hy
      · exact hs
    · exact hs
  | deleteMessage sid messageId chatKey senderId deleteFor =>
    simp only [step, deleteMessage]
    split
    · exact hs
    · split
      · exact hs
      · split_ifs
        · exact hs
        · refine reactionsOk_mapSet s hs _ _ ?_ _ _ _ _
          intro m hm
          exact reactionsOk_getD s hs chatKey m (List.mem_of_mem_eraseIdx hm)
        · exact hs
  | typing senderId receiverId isTyping => exact hs
  | createGroup sid now name username type createdBy =>
    simp only [step, createGroup]
    split
    · split_ifs <;> exact hs
    · exact hs
  | joinGroup groupId userId =>
    simp only [step, joinGroup]
    split
    · exact hs
    · split <;> exact hs
  | leaveGroup sid groupId userId =>
    simp only [step, leaveGroup]
    split
    · exact hs
    · split <;> exact hs
  | sendGroupMessage now freshId groupId senderId text timestamp replyTo =>
    simp only [step, sendGroupMessage]
    split
    · split
      · exact hs
      · split_ifs <;>
          first
          | exact hs
          | exact reactionsOk_pushMessage s hs _ _
              (fun e => by simp [reactedUsers, groupMessage, mapGet]) _ _ _ _
    · exact hs
  | getGroupMessages sid groupId => exact hs
  | addReaction messageId chatKey emoji userId =>
    simp only [step, addReaction]
    split
    · exact hs
    · rename_i msg hfind
      have hmsg := reactionsOk_getD s hs chatKey msg (List.mem_of_find?_eq_some hfind)
      have hafter := reactionsOk_after msg hmsg emoji userId
      unfold reactionsAfter at hafter
      split
      · rename_i htoggle
        rw [htoggle] at hafter
        refine reactionsOk_mapSet s hs _ _ ?_ _ _ _ _
        intro m hm
        rcases mem_updateFirst _ _ _ _ hm with h | ⟨y, hy, rfl⟩
        · exact reactionsOk_getD s hs chatKey m h
        · exact hafter
      · rename_i r htoggle
        rw [htoggle] at hafter
        refine reactionsOk_mapSet s hs _ _ ?_ _ _ _ _
        intro m hm
        rcases mem_updateFirst _ _ _ _ hm with h | ⟨y, hy, rfl⟩
        · exact reactionsOk_getD s hs chatKey m h
        · exact hafter
  | search sid query =>
    simp only [step, search]
    split_ifs <;> exact hs
  | disconnect sid now =>
    simp only [step, disconnect]
    split
    · split_ifs
      · exact hs
      · split <;> exact hs
    · exact hs

theorem reactionsOk_run (es : List Event) : ∀ s : State, s.reactionsOk → (run s es).reactionsOk := by
  induction es with
  | nil => exact fun s hs => hs
  | cons e rest ih => exact fun s hs => ih _ (step_reactionsOk s hs e)

theorem reactionsOk_reachable (es : List Event) : (run State.empty es).reactionsOk :=
  reactionsOk_run es State.empty (fun p hp => by cases hp)

/-- C4 as stated fails: `a@x` sends `m1` to `b@x`, then `c@x` and `b@x` react with "like",
so the message holds the array `[c@x, b@x]`.  Two further `add-reaction` events of `c@x`
leave the array `[b@x, c@x]`: the stored reaction map is not the one before the first of
them.  On the fresh message, two `add-reaction` events of `c@x` turn the absent reaction
object into an empty one. -/
theorem reaction_double_toggle_counterexample :
    mapGet (run State.empty
        [Event.sendMessage "s1" 7 "m1" (some "a@x") (some "b@x") (some "hi") none none,
         Event.addReaction "m1" "a@x::b@x" "like" "c@x",
         Event.addReaction "m1" "a@x::b@x" "like" "b@x"]).messages "a@x::b@x" =
      some [{ directMessage 7 "m1" "a@x" "b@x" "hi" none none with
              reactions := some [("like", ["c@x", "b@x"])] }] ∧
    mapGet (run State.empty
        [Event.sendMessage "s1" 7 "m1" (some "a@x") (some "b@x") (some "hi") none none,
         Event.addReaction "m1" "a@x::b@x" "like" "c@x",
         Event.addReaction "m1" "a@x::b@x" "like" "b@x",
         Event.addReaction "m1" "a@x::b@x" "like" "c@x",
         Event.addReaction "m1" "a@x::b@x" "like" "c@x"]).messages "a@x::b@x" =
      some [{ directMessage 7 "m1" "a@x" "b@x" "hi" none none with
              reactions := some [("like", ["b@x", "c@x"])] }] ∧
    mapGet (run State.empty
        [Event.sendMessage "s1" 7 "m1" (some "a@x") (some "b@x") (some "hi") none none,
         Event.addReaction "m1" "a@x::b@x" "like" "c@x",
         Event.addReaction "m1" "a@x::b@x" "like" "c@x"]).messages "a@x::b@x" =
      some [{ directMessage 7 "m1" "a@x" "b@x" "hi" none none with reactions := some [] }] ∧
    (directMessage 7 "m1" "a@x" "b@x" "hi" none none).reactions = none := by
  refine ⟨?_, ?_, ?_, ?_⟩ <;> decide

/-- C4 (amended): in a store reached from the empty store by any events, let the log at
`chatKey` be `pre ++ msg :: post` with `msg` the first message whose id is `messageId`.
After two `add-reaction` events with the same `(messageId, chatKey, emoji, userId)` the log
is `pre ++ msg1 :: post`, where `msg1` is `msg` with a reaction object that holds under
every emoji the same users as before the first event: each array is a permutation of the
array before, and is the same array when the user was not recorded under the emoji before.
Every other field of the message, every other message, every other chat log and every
other store is unchanged. -/
theorem reaction_double_toggle (es : List Event) (messageId chatKey emoji userId : String)
    (pre post : List Msg) (msg : Msg)
    (hlog : mapGet (run State.empty es).messages chatKey = some (pre ++ msg :: post))
    (hpre : ∀ x ∈ pre, x.id ≠ messageId) (hid : msg.id = messageId) :
    mapGet (addReaction (addReaction (run State.empty es) messageId chatKey emoji userId).1
        messageId chatKey emoji userId).1.messages chatKey =
      some (pre ++ { msg with reactions := some (reactionsAfter
        (some (reactionsAfter msg.reactions emoji userId)) emoji userId) } :: post) ∧
    (∀ e, (reactedUsers (some (reactionsAfter
        (some (reactionsAfter msg.reactions emoji userId)) emoji userId)) e).Perm
      (reactedUsers msg.reactions e)) ∧
    (∀ e u, u ∈ reactedUsers (some (reactionsAfter
        (some (reactionsAfter msg.reactions emoji userId)) emoji userId)) e ↔
      u ∈ reactedUsers msg.reactions e) ∧
    (userId ∉ reactedUsers msg.reactions emoji →
      ∀ e, reactedUsers (some (reactionsAfter
        (some (reactionsAfter msg.reactions emoji userId)) emoji userId)) e =
        reactedUsers msg.reactions e) ∧
    (∀ k, k ≠ chatKey →
      mapGet (addReaction (addReaction (run State.empty es) messageId chatKey emoji userId).1
        messageId chatKey emoji userId).1.messages k =
        mapGet (run State.empty es).messages k) ∧
    (addReaction (addReaction (run State.empty es) messageId chatKey emoji userId).1
        messageId chatKey emoji userId).1.users = (run State.empty es).users ∧
    (addReaction (addReaction (run State.empty es) messageId chatKey emoji userId).1
        messageId chatKey emoji userId).1.online = (run State.empty es).online ∧
    (addReaction (addReaction (run State.empty es) messageId chatKey emoji userId).1
        messageId chatKey emoji userId).1.groups = (run State.empty es).groups ∧
    (addReaction (addReaction (run State.empty es) messageId chatKey emoji userId).1
        messageId chatKey emoji userId).1.usernames = (run State.empty es).usernames := by
  have hok : msg.reactionsOk :=
    reactionsOk_reachable es (chatKey, pre ++ msg :: post) (mapGet_mem _ _ _ hlog) msg
      (by simp)
  have hcount : (reactedUsers msg.reactions emoji).count userId ≤ 1 :=
    List.nodup_iff_count_le_one.mp (hok emoji).1 userId
  have htwice := reactedUsers_after_twice msg.reactions emoji userId hcount (hok emoji).2
  rw [addReaction_found (run State.empty es) messageId chatKey emoji userId pre post msg
    hlog hpre hid]
  rw [addReaction_found _ messageId chatKey emoji userId pre post
    { msg with reactions := some (reactionsAfter msg.reactions emoji userId) }
    (mapGet_mapSet_self _ _ _) hpre hid]
  refine ⟨mapGet_mapSet_self _ _ _, fun e => (htwice e).1, fun e u => (htwice e).1.mem_iff,
    fun hnot e => (htwice e).2 hnot, ?_, rfl, rfl, rfl, rfl⟩
  intro k hk
  simp only [mapGet_mapSet_ne _ _ _ _ hk]

/-- Witness for C4: `a@x` sends `m1` to `b@x`, `c@x` and `b@x` react with "like", and then
`c@x` toggles "like" twice; afterwards "like" holds the same two users. -/
theorem reaction_double_toggle_witness :
    (reactedUsers (some (reactionsAfter (some (reactionsAfter
        (some [("like", ["c@x", "b@x"])]) "like" "c@x")) "like" "c@x")) "like").Perm
      ["c@x", "b@x"] :=
  (reaction_double_toggle
    [Event.sendMessage "s1" 7 "m1" (some "a@x") (some "b@x") (some "hi") none none,
     Event.addReaction "m1" "a@x::b@x" "like" "c@x",
     Event.addReaction "m1" "a@x::b@x" "like" "b@x"]
    "m1" "a@x::b@x" "like" "c@x" [] []
    { directMessage 7 "m1" "a@x" "b@x" "hi" none none with
      reactions := some [("like", ["c@x", "b@x"])] }
    (by decide) (by intro x hx; cases hx) (by decide)).2.1 "like"

/-! ## Append-only logs -/

/-- C17: a valid `send-message` rewrites only the log at the key of the pair, which becomes
the old log (empty when absent) followed by the new message; a `send-group-message` with
non-empty text to an existing group does the same at the key `groupId`; in both cases the
text of the new message is the payload text without its leading and trailing white space;
`get-messages` and `get-group-messages` return the store they were given.  The store is
arbitrary: the statements on `send-message` and on the two queries need no group. -/
theorem append_only_log (s : State) (sid : String) (now : Nat) (freshId txt : String)
    (ts : Option Nat) (rt : Option String) :
    (∀ a b : String, a ≠ "" → b ≠ "" → txt ≠ "" → ∀ k,
      mapGet (sendMessage s sid now freshId (some a) (some b) (some txt) ts rt).1.messages k =
        if k = chatKeyOf (some a) (some b) then
          some ((mapGet s.messages k).getD [] ++ [directMessage now freshId a b txt ts rt])
        else mapGet s.messages k) ∧
    (∀ a b : String, IsTrimOf (directMessage now freshId a b txt ts rt).text txt) ∧
    (∀ (gid : String) (senderId : Option String) (g : Group),
      mapGet s.groups gid = some g → txt ≠ "" → ∀ k,
      mapGet (sendGroupMessage s now freshId (some gid) senderId (some txt) ts
          rt).1.messages k =
        if k = gid then
          some ((mapGet s.messages k).getD [] ++
            [groupMessage now freshId gid senderId txt ts rt])
        else mapGet s.messages k) ∧
    (∀ (gid : String) (senderId : Option String),
      IsTrimOf (groupMessage now freshId gid senderId txt ts rt).text txt) ∧
    (∀ u1 u2 : Option String, (getMessages s sid u1 u2).1 = s) ∧
    (∀ groupId : Option String, (getGroupMessages s sid groupId).1 = s) := by
  refine ⟨?_, fun _ _ => trim_isTrimOf txt, ?_, fun _ _ => trim_isTrimOf txt,
    fun _ _ => rfl, fun _ => rfl⟩
  · intro a b ha hb ht k
    rw [sendMessage_valid s sid now freshId a b txt ts rt ha hb ht]
    by_cases hk : k = chatKeyOf (some a) (some b)
    · subst hk
      simp [mapGet_pushMessage_self]
    · simp only [hk, if_false]
      exact mapGet_pushMessage_ne _ _ _ _ hk
  · intro gid senderId g hg ht k
    rw [sendGroupMessage_valid s now freshId gid txt senderId ts rt g hg ht]
    by_cases hk : k = gid
    · subst hk
      simp [mapGet_pushMessage_self]
    · simp only [hk, if_false]
      exact mapGet_pushMessage_ne _ _ _ _ hk

/-- Witness for C17: in the empty store, which has no group, `b@x` sends " hi " to `a@x`;
the log at the key of the pair holds the one message, whose text is "hi"; in a store with
the group `g_5` a message sent to the group is appended to the log at `g_5`. -/
theorem append_only_log_witness :
    mapGet (sendMessage State.empty "s2" 6 "m1" (some "b@x") (some "a@x") (some " hi ")
        none none).1.messages "a@x::b@x" =
      some ([] ++ [directMessage 6 "m1" "b@x" "a@x" " hi " none none]) ∧
    (directMessage 6 "m1" "b@x" "a@x" " hi " none none).text = "hi" ∧
    mapGet (sendGroupMessage
        (createGroup State.empty "s1" 5 (some "Team") (some "@team") none (some "a@x")).1
        6 "m1" (some "g_5") (some "b@x") (some " hi ") none none).1.messages "g_5" =
      some ([] ++ [groupMessage 6 "m1" "g_5" (some "b@x") " hi " none none]) :=
  ⟨(by
      simpa using (append_only_log State.empty "s2" 6 "m1" " hi " none none).1
        "b@x" "a@x" (by decide) (by decide) (by decide) "a@x::b@x"),
   (by decide),
   (by
      simpa using (append_only_log
        (createGroup State.empty "s1" 5 (some "Team") (some "@team") none (some "a@x")).1
        "s2" 6 "m1" " hi " none none).2.2.1 "g_5" (some "b@x")
        (groupRecord 5 "Team" "team" none "a@x") (by decide) (by decide) "g_5")⟩

/-! ## Participants of a direct chat -/

theorem notifyAll_onlineSessions (s : State) (o : Out) : ∀ ids : List String,
    notifyAll s (ids.map some) o =
      (onlineSessions s ids).map (fun sid => (⟨Target.socket sid, o⟩ : Emit))
  | [] => rfl
  | id :: rest => by
    have ih := notifyAll_onlineSessions s o rest
    have hcons : notifyAll s ((id :: rest).map some) o =
        toOnline s (some id) o ++ notifyAll s (rest.map some) o := by
      simp [notifyAll]
    rw [hcons, ih]
    simp only [toOnline, usersGet, onlineSessions]
    cases mapGet s.users id with
    | none => rfl
    | some u => by_cases hon : u.online = true <;> simp [hon]

theorem includesColons_join : ∀ (x y : List Char),
    includesColons (x ++ ':' :: ':' :: y) = true
  | [], y => by simp [includesColons]
  | [c], y => by simp [includesColons]
  | c :: d :: x, y => by
    have ih := includesColons_join (d :: x) y
    simp only [List.cons_append] at ih ⊢
    simp [includesColons, ih]

theorem includesColons_chatKeyOf (a b : String) :
    includesColons (chatKeyOf (some a) (some b)).data = true := by
  have h : ∀ x y : String, includesColons (x ++ "::" ++ y).data = true := by
    intro x y
    have hdata : (x ++ "::" ++ y).data = x.data ++ ':' :: ':' :: y.data := by
      simp [String.data_append]
    rw [hdata]
    exact includesColons_join _ _
  unfold chatKeyOf sortPair
  by_cases hab : jsLt b a = true
  · simp only [hab, if_true, joinStr]
    exact h b a
  · simp only [hab, joinStr]
    exact h a b

/-- C18: for identities `a`, `b` without the character `:`, splitting the direct chat key
on `::` gives the two identities in sorted order, and two such pairs with the same key are
the same unordered pair.  Hence on that key a successful `edit-message`, a `delete-message`
for everyone by the stored sender and an `add-reaction` that records the toggle emit their
event to the sessions of those of the two identities that are flagged online, in
sorted order, and to nobody else. -/
theorem chat_key_round_trip (a b c d : String)
    (ha : ':' ∉ a.data) (hb : ':' ∉ b.data) (hc : ':' ∉ c.data) (hd : ':' ∉ d.data) :
    splitKey (chatKeyOf (some a) (some b)) = (if jsLt b a then [b, a] else [a, b]) ∧
    (chatKeyOf (some a) (some b) = chatKeyOf (some c) (some d) →
      (a = c ∧ b = d) ∨ (a = d ∧ b = c)) ∧
    (∀ (s : State) (messageId newText : String) (m : Msg),
      ((mapGet s.messages (chatKeyOf (some a) (some b))).getD []).find?
          (fun x => decide (x.id = messageId)) = some m →
      (editMessage s messageId (chatKeyOf (some a) (some b)) newText m.senderId).2 =
        (onlineSessions s (if jsLt b a then [b, a] else [a, b])).map (fun sid =>
          (⟨Target.socket sid,
            Out.messageEdited messageId (trim newText) (chatKeyOf (some a) (some b))⟩ :
            Emit))) ∧
    (∀ (s : State) (caller messageId : String) (m : Msg),
      ((mapGet s.messages (chatKeyOf (some a) (some b))).getD []).find?
          (fun x => decide (x.id = messageId)) = some m →
      (deleteMessage s caller messageId (chatKeyOf (some a) (some b)) m.senderId
          (some "everyone")).2 =
        (onlineSessions s (if jsLt b a then [b, a] else [a, b])).map (fun sid =>
          (⟨Target.socket sid,
            Out.messageDeleted messageId (chatKeyOf (some a) (some b))⟩ : Emit))) ∧
    (∀ (s : State) (messageId emoji userId : String) (m : Msg)
        (r : List (String × List String)),
      ((mapGet s.messages (chatKeyOf (some a) (some b))).getD []).find?
          (fun x => decide (x.id = messageId)) = some m →
      toggleReaction m.reactions emoji userId = some r →
      (addReaction s messageId (chatKeyOf (some a) (some b)) emoji userId).2 =
        (onlineSessions s (if jsLt b a then [b, a] else [a, b])).map (fun sid =>
          (⟨Target.socket sid,
            Out.reactionUpdated messageId r (chatKeyOf (some a) (some b))⟩ : Emit))) := by
  have hsplit := splitKey_chatKeyOf a b ha hb
  refine ⟨hsplit, ?_, ?_, ?_, ?_⟩
  · intro h
    have h1 := splitKey_chatKeyOf a b ha hb
    rw [h, splitKey_chatKeyOf c d hc hd] at h1
    by_cases hab : jsLt b a = true <;> by_cases hcd : jsLt d c = true <;>
      simp [hab, hcd] at h1 <;> simp [h1]
  · intro s messageId newText m hm
    simp only [editMessage, hm, if_true, hsplit]
    exact notifyAll_onlineSessions s _ _
  · intro s caller messageId m hm
    cases hi : findIndex messageId
        ((mapGet s.messages (chatKeyOf (some a) (some b))).getD []) with
    | none =>
      rw [findIndex_none messageId _ hi] at hm
      cases hm
    | some idx =>
      have hget := findIndex_some messageId _ idx hi
      rw [hm] at hget
      simp only [deleteMessage, hi, hget, ne_eq, not_true_eq_false, if_false, if_true, hsplit]
      exact notifyAll_onlineSessions s _ _
  · intro s messageId emoji userId m r hm hr
    simp only [addReaction, hm, hr, includesColons_chatKeyOf a b, if_true, hsplit]
    exact notifyAll_onlineSessions s _ _

/-- Witness for C18: `a@x` (online on `s1`) sent `m1` to `b@x`, who is not registered; the
key of `b@x` and `a@x` splits into `a@x`, `b@x`, and the edit of `m1` by `a@x` is emitted
to `s1` only. -/
theorem chat_key_round_trip_witness :
    splitKey (chatKeyOf (some "b@x") (some "a@x")) =
      (if jsLt "a@x" "b@x" then ["a@x", "b@x"] else ["b@x", "a@x"]) ∧
    (editMessage (run State.empty
        [Event.register "s1" 1 (some "a@x") (some "A") none none,
         Event.sendMessage "s1" 7 "m1" (some "a@x") (some "b@x") (some "hi") none none])
      "m1" (chatKeyOf (some "b@x") (some "a@x")) "bye"
      (directMessage 7 "m1" "a@x" "b@x" "hi" none none).senderId).2 =
      (onlineSessions (run State.empty
        [Event.register "s1" 1 (some "a@x") (some "A") none none,
         Event.sendMessage "s1" 7 "m1" (some "a@x") (some "b@x") (some "hi") none none])
        (if jsLt "a@x" "b@x" then ["a@x", "b@x"] else ["b@x", "a@x"])).map (fun sid =>
          (⟨Target.socket sid,
            Out.messageEdited "m1" (trim "bye") (chatKeyOf (some "b@x") (some "a@x"))⟩ :
            Emit)) ∧
    onlineSessions (run State.empty
        [Event.register "s1" 1 (some "a@x") (some "A") none none,
         Event.sendMessage "s1" 7 "m1" (some "a@x") (some "b@x") (some "hi") none none])
      ["a@x", "b@x"] = ["s1"] :=
  ⟨(chat_key_round_trip "b@x" "a@x" "b@x" "a@x"
      (by decide) (by decide) (by decide) (by decide)).1,
   (chat_key_round_trip "b@x" "a@x" "b@x" "a@x"
      (by decide) (by decide) (by decide) (by decide)).2.2.1
      (run State.empty
        [Event.register "s1" 1 (some "a@x") (some "A") none none,
         Event.sendMessage "s1" 7 "m1" (some "a@x") (some "b@x") (some "hi") none none])
      "m1" "bye" (directMessage 7 "m1" "a@x" "b@x" "hi" none none) (by decide),
   (by decide)⟩

end Hub
